import Mathlib

/-!
Verification development for the TCD1304 "blackpill" firmware communications
core: a shallow embedding of the CCD data layer (`ccd_data_layer.c`), the
byte ring buffer (`ring_buffer.c`), the USB response path and the ASCII
command layer (`command_layer.c`, final revision), followed by theorems
about the frame codec, the ring-buffer invariants and the command protocol.

Machine integers are modelled as `Nat` with explicit `% 2^w` where the C
code's fixed-width arithmetic matters.  The packed `CCD_Frame_t` struct is
modelled both as a record and as its byte serialization (the C code reads
and checksums the struct through a `uint8_t*` view of its memory).
-/

set_option maxRecDepth 4000

namespace TCD1304

/-! ## CRC16-CCITT (ccd_data_layer.c, lines 31-79) -/

/-- CRC16-CCITT lookup table (polynomial 0x1021), copied verbatim from
`crc16_table` in `ccd_data_layer.c`. -/
def crc16_table : List Nat :=
  [0x0000, 0x1021, 0x2042, 0x3063, 0x4084, 0x50A5, 0x60C6, 0x70E7,
   0x8108, 0x9129, 0xA14A, 0xB16B, 0xC18C, 0xD1AD, 0xE1CE, 0xF1EF,
   0x1231, 0x0210, 0x3273, 0x2252, 0x52B5, 0x4294, 0x72F7, 0x62D6,
   0x9339, 0x8318, 0xB37B, 0xA35A, 0xD3BD, 0xC39C, 0xF3FF, 0xE3DE,
   0x2462, 0x3443, 0x0420, 0x1401, 0x64E6, 0x74C7, 0x44A4, 0x5485,
   0xA56A, 0xB54B, 0x8528, 0x9509, 0xE5EE, 0xF5CF, 0xC5AC, 0xD58D,
   0x3653, 0x2672, 0x1611, 0x0630, 0x76D7, 0x66F6, 0x5695, 0x46B4,
   0xB75B, 0xA77A, 0x9719, 0x8738, 0xF7DF, 0xE7FE, 0xD79D, 0xC7BC,
   0x48C4, 0x58E5, 0x6886, 0x78A7, 0x0840, 0x1861, 0x2802, 0x3823,
   0xC9CC, 0xD9ED, 0xE98E, 0xF9AF, 0x8948, 0x9969, 0xA90A, 0xB92B,
   0x5AF5, 0x4AD4, 0x7AB7, 0x6A96, 0x1A71, 0x0A50, 0x3A33, 0x2A12,
   0xDBFD, 0xCBDC, 0xFBBF, 0xEB9E, 0x9B79, 0x8B58, 0xBB3B, 0xAB1A,
   0x6CA6, 0x7C87, 0x4CE4, 0x5CC5, 0x2C22, 0x3C03, 0x0C60, 0x1C41,
   0xEDAE, 0xFD8F, 0xCDEC, 0xDDCD, 0xAD2A, 0xBD0B, 0x8D68, 0x9D49,
   0x7E97, 0x6EB6, 0x5ED5, 0x4EF4, 0x3E13, 0x2E32, 0x1E51, 0x0E70,
   0xFF9F, 0xEFBE, 0xDFDD, 0xCFFC, 0xBF1B, 0xAF3A, 0x9F59, 0x8F78,
   0x9188, 0x81A9, 0xB1CA, 0xA1EB, 0xD10C, 0xC12D, 0xF14E, 0xE16F,
   0x1080, 0x00A1, 0x30C2, 0x20E3, 0x5004, 0x4025, 0x7046, 0x6067,
   0x83B9, 0x9398, 0xA3FB, 0xB3DA, 0xC33D, 0xD31C, 0xE37F, 0xF35E,
   0x02B1, 0x1290, 0x22F3, 0x32D2, 0x4235, 0x5214, 0x6277, 0x7256,
   0xB5EA, 0xA5CB, 0x95A8, 0x8589, 0xF56E, 0xE54F, 0xD52C, 0xC50D,
   0x34E2, 0x24C3, 0x14A0, 0x0481, 0x7466, 0x6447, 0x5424, 0x4405,
   0xA7DB, 0xB7FA, 0x8799, 0x97B8, 0xE75F, 0xF77E, 0xC71D, 0xD73C,
   0x26D3, 0x36F2, 0x0691, 0x16B0, 0x6657, 0x7676, 0x4615, 0x5634,
   0xD94C, 0xC96D, 0xF90E, 0xE92F, 0x99C8, 0x89E9, 0xB98A, 0xA9AB,
   0x5844, 0x4865, 0x7806, 0x6827, 0x18C0, 0x08E1, 0x3882, 0x28A3,
   0xCB7D, 0xDB5C, 0xEB3F, 0xFB1E, 0x8BF9, 0x9BD8, 0xABBB, 0xBB9A,
   0x4A75, 0x5A54, 0x6A37, 0x7A16, 0x0AF1, 0x1AD0, 0x2AB3, 0x3A92,
   0xFD2E, 0xED0F, 0xDD6C, 0xCD4D, 0xBDAA, 0xAD8B, 0x9DE8, 0x8DC9,
   0x7C26, 0x6C07, 0x5C64, 0x4C45, 0x3CA2, 0x2C83, 0x1CE0, 0x0CC1,
   0xEF1F, 0xFF3E, 0xCF5D, 0xDF7C, 0xAF9B, 0xBFBA, 0x8FD9, 0x9FF8,
   0x6E17, 0x7E36, 0x4E55, 0x5E74, 0x2E93, 0x3EB2, 0x0ED1, 0x1EF0]

/-- One byte of the table-driven CRC update, embedding the loop body of
`ccd_data_layer_calculate_crc16`:
`uint8_t index = (crc >> 8) ^ data[i]; crc = (crc << 8) ^ crc16_table[index];`
with `crc` a `uint16_t` (hence the final `% 65536`) and `index` a `uint8_t`
(hence the `% 256`). -/
def crc16_update (crc b : Nat) : Nat :=
  let index := ((crc >>> 8) ^^^ b) % 256
  ((crc <<< 8) ^^^ crc16_table.getD index 0) % 65536

/-- Model of `ccd_data_layer_calculate_crc16`: table-driven CRC16-CCITT with initial
value 0xFFFF, folded over the byte sequence. -/
def ccd_data_layer_calculate_crc16 (data : List Nat) : Nat :=
  data.foldl crc16_update 0xFFFF

/-- One bit-serial step of the CRC-16-CCITT shift register:
shift left by one and, when the bit shifted out was set, xor in the
polynomial 0x1021 (all in 16 bits). -/
def crcBitStep (x : Nat) : Nat :=
  if x.testBit 15 then ((x <<< 1) % 65536) ^^^ 0x1021 else (x <<< 1) % 65536

/-- The CRC value determined by polynomial 0x1021 for a single index byte:
eight bit-serial steps applied to the byte placed in the high half. -/
def crcTableEntry (v : Nat) : Nat :=
  crcBitStep^[8] (v <<< 8)

/-- Bitwise reference definition of CRC-16-CCITT (polynomial 0x1021,
initial value 0xFFFF): each input byte is xor-ed into the high byte of the
register, followed by eight bit-serial steps. -/
def crc16_ref (data : List Nat) : Nat :=
  data.foldl (fun crc b => crcBitStep^[8] (crc ^^^ ((b % 256) <<< 8))) 0xFFFF

theorem crc16_table_eq_ref : crc16_table = (List.range 256).map crcTableEntry := by
  decide

theorem crc16_table_lt :
    ∀ i < 256, crc16_table.getD i 0 < 65536 := by decide

theorem crc16_table_low_byte_nodup :
    (crc16_table.map (· % 256)).Nodup := by decide

theorem crc16_table_length : crc16_table.length = 256 := by decide

/-! ### Arithmetic facts about the CRC update -/

theorem xor_mod_two_pow (x y n : Nat) :
    (x ^^^ y) % 2 ^ n = (x % 2 ^ n) ^^^ (y % 2 ^ n) := by
  apply Nat.eq_of_testBit_eq
  intro i
  simp only [Nat.testBit_mod_two_pow, Nat.testBit_xor]
  by_cases h : i < n <;> simp [h]

theorem crc16_update_lt (c b : Nat) : crc16_update c b < 65536 :=
  Nat.mod_lt _ (by norm_num)

theorem crc16_fold_lt (bs : List Nat) (c : Nat) (hc : c < 65536) :
    bs.foldl crc16_update c < 65536 := by
  induction bs generalizing c with
  | nil => exact hc
  | cons b bs ih => exact ih _ (crc16_update_lt c b)

theorem ccd_data_layer_calculate_crc16_lt (bs : List Nat) :
    ccd_data_layer_calculate_crc16 bs < 65536 :=
  crc16_fold_lt bs 0xFFFF (by norm_num)

/-- The low byte of the table-driven update is the low byte of the table
entry selected by the index. -/
theorem crc16_update_mod_256 (c b : Nat) :
    crc16_update c b % 256 = crc16_table.getD (((c >>> 8) ^^^ b) % 256) 0 % 256 := by
  unfold crc16_update
  have h65536 : (65536 : Nat) = 2 ^ 16 := by norm_num
  have h256 : (256 : Nat) = 2 ^ 8 := by norm_num
  rw [Nat.mod_mod_of_dvd _ (by norm_num)]
  rw [h256, xor_mod_two_pow]
  have hc : (c <<< 8) % 2 ^ 8 = 0 := by
    rw [Nat.shiftLeft_eq]
    simp [Nat.mul_mod_left]
  rw [hc, Nat.zero_xor]

/-- The high byte of the table-driven update is determined by the low byte
of the incoming CRC together with the selected table entry. -/
theorem crc16_update_eq (c b : Nat) :
    crc16_update c b
      = ((c % 256) <<< 8) ^^^ crc16_table.getD (((c >>> 8) ^^^ b) % 256) 0 := by
  unfold crc16_update
  have h65536 : (65536 : Nat) = 2 ^ 16 := by norm_num
  rw [h65536, xor_mod_two_pow]
  have hshift : (c <<< 8) % 2 ^ 16 = (c % 256) <<< 8 := by
    rw [Nat.shiftLeft_eq, Nat.shiftLeft_eq]
    have : (2 : Nat) ^ 16 = 256 * 2 ^ 8 := by norm_num
    rw [this, Nat.mul_mod_mul_right]
  have htab : crc16_table.getD (((c >>> 8) ^^^ b) % 256) 0 % 2 ^ 16
      = crc16_table.getD (((c >>> 8) ^^^ b) % 256) 0 := by
    apply Nat.mod_eq_of_lt
    have := crc16_table_lt (((c >>> 8) ^^^ b) % 256) (Nat.mod_lt _ (by norm_num))
    omega
  rw [hshift, htab]

/-- Two distinct indices below 256 select table entries with distinct low
bytes. -/
theorem crc16_table_low_inj {i j : Nat} (hi : i < 256) (hj : j < 256)
    (h : crc16_table.getD i 0 % 256 = crc16_table.getD j 0 % 256) : i = j := by
  have hlen : (crc16_table.map (· % 256)).length = 256 := by decide
  have hi' : i < (crc16_table.map (· % 256)).length := by omega
  have hj' : j < (crc16_table.map (· % 256)).length := by omega
  have hgi : (crc16_table.map (· % 256))[i] = crc16_table.getD i 0 % 256 := by
    rw [List.getElem_map]
    congr 1
    exact (List.getD_eq_getElem _ _ (by simpa using hi')).symm
  have hgj : (crc16_table.map (· % 256))[j] = crc16_table.getD j 0 % 256 := by
    rw [List.getElem_map]
    congr 1
    exact (List.getD_eq_getElem _ _ (by simpa using hj')).symm
  have hinj := List.nodup_iff_injective_get.mp crc16_table_low_byte_nodup
  have hfin : (⟨i, hi'⟩ : Fin (crc16_table.map (· % 256)).length) = ⟨j, hj'⟩ := by
    apply hinj
    rw [List.get_eq_getElem, List.get_eq_getElem, hgi, hgj]
    exact h
  simpa using hfin

/-- The table-driven update is injective in the CRC argument. -/
theorem crc16_update_inj_left {c₁ c₂ b : Nat} (h₁ : c₁ < 65536) (h₂ : c₂ < 65536)
    (h : crc16_update c₁ b = crc16_update c₂ b) : c₁ = c₂ := by
  have hlow : crc16_table.getD (((c₁ >>> 8) ^^^ b) % 256) 0 % 256
      = crc16_table.getD (((c₂ >>> 8) ^^^ b) % 256) 0 % 256 := by
    have := congrArg (· % 256) h
    simpa [crc16_update_mod_256] using this
  have hidx : ((c₁ >>> 8) ^^^ b) % 256 = ((c₂ >>> 8) ^^^ b) % 256 :=
    crc16_table_low_inj (Nat.mod_lt _ (by norm_num)) (Nat.mod_lt _ (by norm_num)) hlow
  -- recover the high bytes from the index equality
  have h256 : (256 : Nat) = 2 ^ 8 := by norm_num
  have hhi₁ : c₁ >>> 8 < 256 := by
    rw [Nat.shiftRight_eq_div_pow]
    omega
  have hhi₂ : c₂ >>> 8 < 256 := by
    rw [Nat.shiftRight_eq_div_pow]
    omega
  have hidx' : (c₁ >>> 8) ^^^ (b % 256) = (c₂ >>> 8) ^^^ (b % 256) := by
    have e₁ : ((c₁ >>> 8) ^^^ b) % 256 = (c₁ >>> 8) ^^^ (b % 256) := by
      rw [h256, xor_mod_two_pow, Nat.mod_eq_of_lt (h256 ▸ hhi₁)]
    have e₂ : ((c₂ >>> 8) ^^^ b) % 256 = (c₂ >>> 8) ^^^ (b % 256) := by
      rw [h256, xor_mod_two_pow, Nat.mod_eq_of_lt (h256 ▸ hhi₂)]
    rw [e₁, e₂] at hidx
    exact hidx
  have hhi : c₁ >>> 8 = c₂ >>> 8 := by
    have := congrArg (· ^^^ (b % 256)) hidx'
    simpa [Nat.xor_assoc] using this
  -- recover the low bytes from the update equality
  rw [crc16_update_eq, crc16_update_eq, hidx] at h
  have hlo : (c₁ % 256) <<< 8 = (c₂ % 256) <<< 8 := by
    have := congrArg (· ^^^ crc16_table.getD (((c₂ >>> 8) ^^^ b) % 256) 0) h
    simpa [Nat.xor_assoc] using this
  have hlo' : c₁ % 256 = c₂ % 256 := by
    rw [Nat.shiftLeft_eq, Nat.shiftLeft_eq] at hlo
    exact Nat.eq_of_mul_eq_mul_right (by norm_num) hlo
  have e₁ : c₁ = (c₁ >>> 8) * 256 + c₁ % 256 := by
    rw [Nat.shiftRight_eq_div_pow]
    omega
  have e₂ : c₂ = (c₂ >>> 8) * 256 + c₂ % 256 := by
    rw [Nat.shiftRight_eq_div_pow]
    omega
  omega

/-- The table-driven update is injective in the data byte. -/
theorem crc16_update_inj_right {c b₁ b₂ : Nat} (hb₁ : b₁ < 256) (hb₂ : b₂ < 256)
    (h : crc16_update c b₁ = crc16_update c b₂) : b₁ = b₂ := by
  have hlow : crc16_table.getD (((c >>> 8) ^^^ b₁) % 256) 0 % 256
      = crc16_table.getD (((c >>> 8) ^^^ b₂) % 256) 0 % 256 := by
    have := congrArg (· % 256) h
    simpa [crc16_update_mod_256] using this
  have hidx : ((c >>> 8) ^^^ b₁) % 256 = ((c >>> 8) ^^^ b₂) % 256 :=
    crc16_table_low_inj (Nat.mod_lt _ (by norm_num)) (Nat.mod_lt _ (by norm_num)) hlow
  have h256 : (256 : Nat) = 2 ^ 8 := by norm_num
  have hidx' : ((c >>> 8) % 256) ^^^ b₁ = ((c >>> 8) % 256) ^^^ b₂ := by
    have e₁ : ((c >>> 8) ^^^ b₁) % 256 = ((c >>> 8) % 256) ^^^ b₁ := by
      rw [h256, xor_mod_two_pow]
      congr 1
      omega
    have e₂ : ((c >>> 8) ^^^ b₂) % 256 = ((c >>> 8) % 256) ^^^ b₂ := by
      rw [h256, xor_mod_two_pow]
      congr 1
      omega
    rw [e₁, e₂] at hidx
    exact hidx
  have := congrArg (((c >>> 8) % 256) ^^^ ·) hidx'
  simpa [← Nat.xor_assoc] using this

/-- Folding the CRC update over a byte list is injective in the initial
CRC value. -/
theorem crc16_fold_inj (bs : List Nat) :
    ∀ c₁ c₂, c₁ < 65536 → c₂ < 65536 →
      bs.foldl crc16_update c₁ = bs.foldl crc16_update c₂ → c₁ = c₂ := by
  induction bs with
  | nil => intro c₁ c₂ _ _ h; exact h
  | cons b bs ih =>
    intro c₁ c₂ h₁ h₂ h
    exact crc16_update_inj_left h₁ h₂
      (ih _ _ (crc16_update_lt c₁ b) (crc16_update_lt c₂ b) h)

/-- Changing a single byte of the input changes the CRC. -/
theorem crc16_single_byte_change (pre suf : List Nat) {x y : Nat}
    (hx : x < 256) (hy : y < 256) (hxy : x ≠ y) :
    ccd_data_layer_calculate_crc16 (pre ++ x :: suf)
      ≠ ccd_data_layer_calculate_crc16 (pre ++ y :: suf) := by
  intro h
  unfold ccd_data_layer_calculate_crc16 at h
  rw [List.foldl_append, List.foldl_append] at h
  simp only [List.foldl_cons] at h
  set c := pre.foldl crc16_update 0xFFFF with hc
  have hclt : c < 65536 := crc16_fold_lt pre 0xFFFF (by norm_num)
  have := crc16_fold_inj suf _ _ (crc16_update_lt c x) (crc16_update_lt c y) h
  exact hxy (crc16_update_inj_right hx hy this)

/-! ### Equivalence of the table-driven CRC with the bitwise reference -/

theorem xor_left_comm (a b c : Nat) : a ^^^ (b ^^^ c) = b ^^^ (a ^^^ c) := by
  rw [← Nat.xor_assoc, Nat.xor_comm a b, Nat.xor_assoc]

theorem xor_xor_cancel_left (a b : Nat) : a ^^^ (a ^^^ b) = b := by
  rw [← Nat.xor_assoc, Nat.xor_self, Nat.zero_xor]

theorem shiftLeft_xor_distrib (x y n : Nat) :
    (x ^^^ y) <<< n = (x <<< n) ^^^ (y <<< n) := by
  apply Nat.eq_of_testBit_eq
  intro i
  simp only [Nat.testBit_shiftLeft, Nat.testBit_xor]
  by_cases h : n ≤ i <;> simp [h]

theorem crcBitStep_eq (x : Nat) :
    crcBitStep x = ((x <<< 1) % 65536) ^^^ (cond (x.testBit 15) 4129 0) := by
  unfold crcBitStep
  cases h : x.testBit 15 <;> simp [h]

theorem crcBitStep_xor (x y : Nat) :
    crcBitStep (x ^^^ y) = crcBitStep x ^^^ crcBitStep y := by
  have hs : ((x ^^^ y) <<< 1) % 65536 = ((x <<< 1) % 65536) ^^^ ((y <<< 1) % 65536) := by
    rw [shiftLeft_xor_distrib, show (65536 : Nat) = 2 ^ 16 by norm_num, xor_mod_two_pow]
  rw [crcBitStep_eq, crcBitStep_eq, crcBitStep_eq, Nat.testBit_xor, hs]
  cases hx : x.testBit 15 <;> cases hy : y.testBit 15 <;>
    simp [Nat.xor_assoc, Nat.xor_comm, xor_left_comm, xor_xor_cancel_left]

theorem crcBitStep_iterate_xor (n x y : Nat) :
    crcBitStep^[n] (x ^^^ y) = crcBitStep^[n] x ^^^ crcBitStep^[n] y := by
  induction n generalizing x y with
  | zero => rfl
  | succ n ih =>
    rw [Function.iterate_succ_apply, Function.iterate_succ_apply,
      Function.iterate_succ_apply, crcBitStep_xor, ih]

theorem crcBitStep_iterate8_low :
    ∀ l < 256, crcBitStep^[8] l = l <<< 8 := by decide

/-- Recomposition of a 16-bit value from its low and high bytes via xor. -/
theorem xor_low_high (c : Nat) : (c % 256) ^^^ ((c >>> 8) <<< 8) = c := by
  apply Nat.eq_of_testBit_eq
  intro i
  rw [show (256 : Nat) = 2 ^ 8 by norm_num]
  simp only [Nat.testBit_xor, Nat.testBit_mod_two_pow, Nat.testBit_shiftLeft,
    Nat.testBit_shiftRight]
  by_cases h : i < 8
  · simp [h, Nat.not_le.mpr h]
  · have h8 : 8 ≤ i := Nat.not_lt.mp h
    have : 8 + (i - 8) = i := by omega
    simp [h, h8, this]

theorem crc16_table_getD_eq (i : Nat) (h : i < 256) :
    crc16_table.getD i 0 = crcTableEntry i := by
  rw [crc16_table_eq_ref]
  rw [List.getD_eq_getElem _ _ (by simpa using h)]
  rw [List.getElem_map, List.getElem_range]

/-- The table-driven byte update agrees with eight bit-serial steps applied
after xor-ing the data byte into the high byte of the register. -/
theorem crc16_update_eq_bitwise {c b : Nat} (hc : c < 65536) (hb : b < 256) :
    crc16_update c b = crcBitStep^[8] (c ^^^ (b <<< 8)) := by
  have hhi : c >>> 8 < 256 := by
    rw [Nat.shiftRight_eq_div_pow]
    omega
  have hidx : (c >>> 8) ^^^ b < 256 := by
    have := Nat.xor_lt_two_pow (n := 8)
      (by simpa using hhi) (by simpa using hb)
    simpa using this
  have hdecomp : c ^^^ (b <<< 8) = (c % 256) ^^^ (((c >>> 8) ^^^ b) <<< 8) := by
    rw [shiftLeft_xor_distrib]
    conv_lhs => rw [← xor_low_high c]
    rw [Nat.xor_assoc]
  rw [hdecomp, crcBitStep_iterate_xor,
    crcBitStep_iterate8_low _ (Nat.mod_lt _ (by norm_num)),
    crc16_update_eq, Nat.mod_eq_of_lt hidx, crc16_table_getD_eq _ hidx,
    crcTableEntry]

/-- The table-driven CRC of any byte sequence equals the bitwise reference
CRC-16-CCITT. -/
theorem calculate_crc16_eq_ref (bs : List Nat) (h : ∀ b ∈ bs, b < 256) :
    ccd_data_layer_calculate_crc16 bs = crc16_ref bs := by
  unfold ccd_data_layer_calculate_crc16 crc16_ref
  have main : ∀ (l : List Nat), (∀ b ∈ l, b < 256) → ∀ c, c < 65536 →
      l.foldl crc16_update c
        = l.foldl (fun crc b => crcBitStep^[8] (crc ^^^ ((b % 256) <<< 8))) c := by
    intro l
    induction l with
    | nil => intro _ c _; rfl
    | cons b bs ih =>
      intro hl c hc
      have hb : b < 256 := hl b (by simp)
      simp only [List.foldl_cons]
      rw [ih (fun x hx => hl x (by simp [hx])) _ (crc16_update_lt c b),
        crc16_update_eq_bitwise hc hb, Nat.mod_eq_of_lt hb]
  exact main bs h 0xFFFF (by norm_num)

/-! ## CCD data layer (ccd_data_layer.h / ccd_data_layer.c) -/

/-- Model of `CCD_Frame_Status_t` from `ccd_data_layer.h`. -/
inductive CCD_Frame_Status where
  | CCD_FRAME_OK
  | CCD_FRAME_ERROR_INVALID_DATA
  | CCD_FRAME_ERROR_SIZE
  | CCD_FRAME_ERROR_CHECKSUM
deriving DecidableEq, Repr

open CCD_Frame_Status

/-- Little-endian byte pair of a `uint16_t` value as laid out in the packed
frame struct. -/
def u16le (n : Nat) : List Nat := [n % 256, (n / 256) % 256]

/-- Byte serialization of the `uint16_t pixel_data[]` array (little-endian
per element), i.e. the in-memory view the CRC and the wire see. -/
def pixelBytes : List Nat → List Nat
  | [] => []
  | p :: ps => p % 256 :: (p / 256) % 256 :: pixelBytes ps

/-- Model of `FRAME_START_MARKER` = "FRME" as ASCII bytes. -/
def FRAME_START_MARKER : List Nat := [70, 82, 77, 69]

/-- Model of `FRAME_END_MARKER` = "ENDF" as ASCII bytes. -/
def FRAME_END_MARKER : List Nat := [69, 78, 68, 70]

/-- Model of `CCD_PIXEL_COUNT` from `ccd_data_layer.h`. -/
def CCD_PIXEL_COUNT : Nat := 3694

/-- Model of `FRAME_TOTAL_SIZE` = header (8) + pixel data (7388) + footer (6). -/
def FRAME_TOTAL_SIZE : Nat := 7402

/-- The packed `CCD_Frame_t` struct.  Multi-byte fields are `uint16_t`
(modelled as `Nat`, kept below 65536 by construction), the markers are raw
4-byte arrays. -/
structure CCD_Frame where
  start_marker : List Nat
  frame_counter : Nat
  pixel_count : Nat
  pixel_data : List Nat
  end_marker : List Nat
  checksum : Nat
deriving DecidableEq, Repr

/-- The byte-for-byte memory image of a packed `CCD_Frame_t` (the view the
C code checksums through a `uint8_t*` cast and transmits over USB):
start marker, counter (LE), pixel count (LE), pixel data (LE each),
end marker, checksum (LE). -/
def ccd_frame_bytes (f : CCD_Frame) : List Nat :=
  f.start_marker ++ u16le f.frame_counter ++ u16le f.pixel_count
    ++ pixelBytes f.pixel_data ++ f.end_marker ++ u16le f.checksum

/-- The private file-scoped state of `ccd_data_layer.c`: the
`static uint16_t frame_counter` and `static bool initialized`. -/
structure CCDLayerState where
  frame_counter : Nat
  initialized : Bool
deriving DecidableEq, Repr

/-- Model of `ccd_data_layer_init`. -/
def ccd_data_layer_init : CCD_Frame_Status × CCDLayerState :=
  (CCD_FRAME_OK, { frame_counter := 0, initialized := true })

/-- The pixel copy loop `for i < CCD_PIXEL_COUNT: frame->pixel_data[i] =
adc_buffer[i]`: exactly 3694 elements are read from the source (reads past
the end of the source, undefined behaviour in C, are modelled as 0). -/
def ccd_pixels (adc : List Nat) : List Nat :=
  adc.take CCD_PIXEL_COUNT ++ List.replicate (CCD_PIXEL_COUNT - adc.length) 0

/-- The frame-construction body of `ccd_data_layer_process_readout`
(lines 109-125): stamp markers, counter and pixel count, copy the 3694
ADC samples, then store the CRC of the first `FRAME_TOTAL_SIZE - 2` bytes
of the struct memory (everything except the checksum field, whose prior
content those bytes do not include). -/
def ccd_build_frame (counter : Nat) (adc : List Nat) : CCD_Frame :=
  let f0 : CCD_Frame :=
    { start_marker := FRAME_START_MARKER
      frame_counter := counter
      pixel_count := CCD_PIXEL_COUNT
      pixel_data := ccd_pixels adc
      end_marker := FRAME_END_MARKER
      checksum := 0 }
  { f0 with
      checksum := ccd_data_layer_calculate_crc16 ((ccd_frame_bytes f0).take 7400) }

/-- Model of `ccd_data_layer_process_readout`.  The `adc_buffer` pointer is modelled
as `Option (List Nat)` (`none` = NULL) and the `frame_out` pointer by the
Boolean `frame_out_nonnull`; on success the written frame is returned as
`some frame`.  The counter increments as a `uint16_t`. -/
def ccd_data_layer_process_readout (s : CCDLayerState)
    (adc_buffer : Option (List Nat)) (frame_out_nonnull : Bool) :
    CCD_Frame_Status × Option CCD_Frame × CCDLayerState :=
  if s.initialized = false then
    (CCD_FRAME_ERROR_INVALID_DATA, none, s)
  else
    match adc_buffer, frame_out_nonnull with
    | none, _ => (CCD_FRAME_ERROR_INVALID_DATA, none, s)
    | some _, false => (CCD_FRAME_ERROR_INVALID_DATA, none, s)
    | some adc, true =>
      (CCD_FRAME_OK, some (ccd_build_frame s.frame_counter adc),
        { s with frame_counter := (s.frame_counter + 1) % 65536 })

/-- Model of `ccd_data_layer_get_frame_count`. -/
def ccd_data_layer_get_frame_count (s : CCDLayerState) : Nat :=
  s.frame_counter

/-- Model of `ccd_data_layer_reset_counter`. -/
def ccd_data_layer_reset_counter (s : CCDLayerState) : CCDLayerState :=
  { s with frame_counter := 0 }

/-- Model of `ccd_data_layer_validate_frame`, read at the byte level of the packed
struct memory it receives a pointer to: the `memcmp`s against the two
markers are the byte comparisons at offsets 0-3 and 7396-7399, the
`pixel_count` field is the little-endian `uint16_t` at offset 6, the
`checksum` field the little-endian `uint16_t` at offset 7400, and the CRC
is recomputed over the first `FRAME_TOTAL_SIZE - 2` bytes. -/
def ccd_data_layer_validate_frame (bs : List Nat) : CCD_Frame_Status :=
  if ¬(bs.getD 0 0 = 70 ∧ bs.getD 1 0 = 82 ∧ bs.getD 2 0 = 77 ∧ bs.getD 3 0 = 69) then
    CCD_FRAME_ERROR_INVALID_DATA
  else if ¬(bs.getD 7396 0 = 69 ∧ bs.getD 7397 0 = 78 ∧ bs.getD 7398 0 = 68 ∧
      bs.getD 7399 0 = 70) then
    CCD_FRAME_ERROR_INVALID_DATA
  else if bs.getD 6 0 + 256 * bs.getD 7 0 ≠ CCD_PIXEL_COUNT then
    CCD_FRAME_ERROR_SIZE
  else if ccd_data_layer_calculate_crc16 (bs.take 7400)
      ≠ bs.getD 7400 0 + 256 * bs.getD 7401 0 then
    CCD_FRAME_ERROR_CHECKSUM
  else
    CCD_FRAME_OK

/-! ### Frame serialization lemmas -/

theorem pixelBytes_length (ps : List Nat) : (pixelBytes ps).length = 2 * ps.length := by
  induction ps with
  | nil => rfl
  | cons p ps ih =>
    simp only [pixelBytes, List.length_cons, ih]
    omega

theorem pixelBytes_mem_lt (ps : List Nat) : ∀ b ∈ pixelBytes ps, b < 256 := by
  induction ps with
  | nil => simp [pixelBytes]
  | cons p ps ih =>
    intro b hb
    simp only [pixelBytes, List.mem_cons] at hb
    rcases hb with h | h | h
    · subst h; exact Nat.mod_lt _ (by norm_num)
    · subst h; exact Nat.mod_lt _ (by norm_num)
    · exact ih b h

theorem u16le_mem_lt (n : Nat) : ∀ b ∈ u16le n, b < 256 := by
  intro b hb
  simp only [u16le, List.mem_cons, List.not_mem_nil, or_false] at hb
  rcases hb with h | h <;> subst h <;> exact Nat.mod_lt _ (by norm_num)

theorem ccd_pixels_length (adc : List Nat) :
    (ccd_pixels adc).length = CCD_PIXEL_COUNT := by
  simp only [ccd_pixels, List.length_append, List.length_take, List.length_replicate,
    CCD_PIXEL_COUNT]
  omega

/-- The first 7400 bytes of a frame: everything except the checksum field. -/
def ccd_frame_body (counter : Nat) (adc : List Nat) : List Nat :=
  FRAME_START_MARKER ++ u16le counter ++ u16le CCD_PIXEL_COUNT
    ++ pixelBytes (ccd_pixels adc)
    ++ FRAME_END_MARKER

theorem ccd_frame_body_length (c : Nat) (adc : List Nat) :
    (ccd_frame_body c adc).length = 7400 := by
  simp only [ccd_frame_body, List.length_append, pixelBytes_length, ccd_pixels_length,
    FRAME_START_MARKER, FRAME_END_MARKER, u16le, CCD_PIXEL_COUNT, List.length_cons,
    List.length_nil]

theorem ccd_frame_body_mem_lt (c : Nat) (adc : List Nat) :
    ∀ b ∈ ccd_frame_body c adc, b < 256 := by
  intro b hb
  simp only [ccd_frame_body, List.mem_append] at hb
  rcases hb with ((((h | h) | h) | h) | h)
  · simp only [FRAME_START_MARKER, List.mem_cons, List.not_mem_nil, or_false] at h
    rcases h with h | h | h | h <;> omega
  · exact u16le_mem_lt _ b h
  · exact u16le_mem_lt _ b h
  · exact pixelBytes_mem_lt _ b h
  · simp only [FRAME_END_MARKER, List.mem_cons, List.not_mem_nil, or_false] at h
    rcases h with h | h | h | h <;> omega

theorem ccd_build_frame_checksum (c : Nat) (adc : List Nat) :
    (ccd_build_frame c adc).checksum
      = ccd_data_layer_calculate_crc16 (ccd_frame_body c adc) := by
  have h : (ccd_frame_bytes
      { start_marker := FRAME_START_MARKER
        frame_counter := c
        pixel_count := CCD_PIXEL_COUNT
        pixel_data := ccd_pixels adc
        end_marker := FRAME_END_MARKER
        checksum := 0 }).take 7400 = ccd_frame_body c adc := by
    show (ccd_frame_body c adc ++ u16le 0).take 7400 = ccd_frame_body c adc
    exact List.take_left' (ccd_frame_body_length c adc)
  simp only [ccd_build_frame]
  rw [h]

theorem ccd_build_frame_bytes (c : Nat) (adc : List Nat) :
    ccd_frame_bytes (ccd_build_frame c adc)
      = ccd_frame_body c adc
          ++ u16le (ccd_data_layer_calculate_crc16 (ccd_frame_body c adc)) := by
  rw [← ccd_build_frame_checksum c adc]
  rfl

theorem ccd_build_frame_bytes_take (c : Nat) (adc : List Nat) :
    (ccd_frame_bytes (ccd_build_frame c adc)).take 7400 = ccd_frame_body c adc := by
  rw [ccd_build_frame_bytes]
  exact List.take_left' (ccd_frame_body_length c adc)

theorem ccd_build_frame_bytes_length (c : Nat) (adc : List Nat) :
    (ccd_frame_bytes (ccd_build_frame c adc)).length = 7402 := by
  rw [ccd_build_frame_bytes]
  simp [ccd_frame_body_length, u16le]

theorem ccd_build_frame_bytes_mem_lt (c : Nat) (adc : List Nat) :
    ∀ b ∈ ccd_frame_bytes (ccd_build_frame c adc), b < 256 := by
  rw [ccd_build_frame_bytes]
  intro b hb
  rcases List.mem_append.mp hb with h | h
  · exact ccd_frame_body_mem_lt c adc b h
  · exact u16le_mem_lt _ b h

/-- Cons-normal form of the frame body: the 8 header bytes followed by the
pixel bytes and the end marker. -/
theorem ccd_frame_body_cons (c : Nat) (adc : List Nat) :
    ccd_frame_body c adc
      = 70 :: 82 :: 77 :: 69 :: (c % 256) :: ((c / 256) % 256) :: 110 :: 14 ::
          (pixelBytes (ccd_pixels adc)
            ++ FRAME_END_MARKER) := by
  simp [ccd_frame_body, FRAME_START_MARKER, u16le, CCD_PIXEL_COUNT]

theorem ccd_frame_body_getD_end (c : Nat) (adc : List Nat) (j : Nat) :
    (ccd_frame_body c adc).getD (7396 + j) 0 = FRAME_END_MARKER.getD j 0 := by
  have hq : (FRAME_START_MARKER ++ u16le c ++ u16le CCD_PIXEL_COUNT
      ++ pixelBytes (ccd_pixels adc)).length
      = 7396 := by
    simp only [List.length_append, pixelBytes_length, ccd_pixels_length,
      FRAME_START_MARKER, u16le, CCD_PIXEL_COUNT, List.length_cons, List.length_nil]
  show ((FRAME_START_MARKER ++ u16le c ++ u16le CCD_PIXEL_COUNT
      ++ pixelBytes (ccd_pixels adc))
      ++ FRAME_END_MARKER).getD (7396 + j) 0 = FRAME_END_MARKER.getD j 0
  rw [List.getD_append_right _ _ _ _ (by rw [hq]; exact Nat.le_add_right 7396 j), hq,
    Nat.add_sub_cancel_left]

/-- A frame built by `ccd_build_frame` validates successfully. -/
theorem ccd_validate_build (c : Nat) (adc : List Nat) :
    ccd_data_layer_validate_frame (ccd_frame_bytes (ccd_build_frame c adc))
      = CCD_FRAME_OK := by
  have hlen : (ccd_frame_body c adc).length = 7400 := ccd_frame_body_length c adc
  rw [ccd_build_frame_bytes]
  obtain ⟨cs, hcs⟩ : ∃ x, ccd_data_layer_calculate_crc16 (ccd_frame_body c adc) = x :=
    ⟨_, rfl⟩
  have hcslt : cs < 65536 := hcs ▸ ccd_data_layer_calculate_crc16_lt (ccd_frame_body c adc)
  rw [hcs]
  have hgetD_lo : ∀ j, j < 7400 →
      (ccd_frame_body c adc ++ u16le cs).getD j 0 = (ccd_frame_body c adc).getD j 0 := by
    intro j hj
    exact List.getD_append _ _ _ _ (by rw [hlen]; exact hj)
  have hgetD_cks : ∀ j, (ccd_frame_body c adc ++ u16le cs).getD (7400 + j) 0
      = (u16le cs).getD j 0 := by
    intro j
    rw [List.getD_append_right _ _ _ _ (by rw [hlen]; exact Nat.le_add_right 7400 j),
      hlen, Nat.add_sub_cancel_left]
  have htake : (ccd_frame_body c adc ++ u16le cs).take 7400 = ccd_frame_body c adc :=
    List.take_left' hlen
  unfold ccd_data_layer_validate_frame
  rw [hgetD_lo 0 (by norm_num), hgetD_lo 1 (by norm_num), hgetD_lo 2 (by norm_num),
    hgetD_lo 3 (by norm_num), hgetD_lo 6 (by norm_num), hgetD_lo 7 (by norm_num),
    hgetD_lo 7396 (by norm_num), hgetD_lo 7397 (by norm_num), hgetD_lo 7398 (by norm_num),
    hgetD_lo 7399 (by norm_num),
    show (7400 : Nat) = 7400 + 0 by rfl, hgetD_cks 0,
    show (7401 : Nat) = 7400 + 1 by rfl, hgetD_cks 1, htake, hcs]
  rw [show (7396 : Nat) = 7396 + 0 by rfl, ccd_frame_body_getD_end,
    show (7397 : Nat) = 7396 + 1 by norm_num, ccd_frame_body_getD_end,
    show (7398 : Nat) = 7396 + 2 by norm_num, ccd_frame_body_getD_end,
    show (7399 : Nat) = 7396 + 3 by norm_num, ccd_frame_body_getD_end]
  have hb0 : (ccd_frame_body c adc).getD 0 0 = 70 := by rw [ccd_frame_body_cons]; rfl
  have hb1 : (ccd_frame_body c adc).getD 1 0 = 82 := by rw [ccd_frame_body_cons]; rfl
  have hb2 : (ccd_frame_body c adc).getD 2 0 = 77 := by rw [ccd_frame_body_cons]; rfl
  have hb3 : (ccd_frame_body c adc).getD 3 0 = 69 := by rw [ccd_frame_body_cons]; rfl
  have hb6 : (ccd_frame_body c adc).getD 6 0 = 110 := by rw [ccd_frame_body_cons]; rfl
  have hb7 : (ccd_frame_body c adc).getD 7 0 = 14 := by rw [ccd_frame_body_cons]; rfl
  have hu0 : (u16le cs).getD 0 0 = cs % 256 := rfl
  have hu1 : (u16le cs).getD 1 0 = (cs / 256) % 256 := rfl
  have hck : cs % 256 + 256 * (cs / 256 % 256) = cs := by omega
  rw [hb0, hb1, hb2, hb3, hb6, hb7, hu0, hu1, hck]
  norm_num [FRAME_END_MARKER, CCD_PIXEL_COUNT]

/-! ## Ring buffer (ring_buffer.c) -/

/-- Model of `ring_buffer_t`: backing storage (length = `size`), `head` (producer
index), `tail` (consumer index), `size`.  All indices are `uint16_t`; on
every reachable state they stay below `size`, so the `Nat` arithmetic here
coincides with the C `uint16_t` arithmetic. -/
structure ring_buffer_t where
  buffer : List Nat
  size : Nat
  head : Nat
  tail : Nat
deriving DecidableEq, Repr

/-- Model of `ring_buffer_init`: caller provides storage of length `size`. -/
def ring_buffer_init (size : Nat) : ring_buffer_t :=
  { buffer := List.replicate size 0, size := size, head := 0, tail := 0 }

/-- Model of `ring_buffer_write`: fails (no mutation) when advancing `head` would
reach `tail`. -/
def ring_buffer_write (rb : ring_buffer_t) (data : Nat) : Bool × ring_buffer_t :=
  let next_head := (rb.head + 1) % rb.size
  if next_head = rb.tail then
    (false, rb)
  else
    (true, { rb with buffer := rb.buffer.set rb.head data, head := next_head })

/-- Model of `ring_buffer_read`: returns `none` when empty, otherwise the byte at
`tail` and the advanced state. -/
def ring_buffer_read (rb : ring_buffer_t) : Option Nat × ring_buffer_t :=
  if rb.head = rb.tail then
    (none, rb)
  else
    (some (rb.buffer.getD rb.tail 0), { rb with tail := (rb.tail + 1) % rb.size })

/-- Model of `ring_buffer_peek`: like read but does not advance `tail`. -/
def ring_buffer_peek (rb : ring_buffer_t) : Option Nat × ring_buffer_t :=
  if rb.head = rb.tail then
    (none, rb)
  else
    (some (rb.buffer.getD rb.tail 0), rb)

/-- Model of `ring_buffer_write_multiple`: writes until the first failure, returns
the count actually written. -/
def ring_buffer_write_multiple (rb : ring_buffer_t) : List Nat → Nat × ring_buffer_t
  | [] => (0, rb)
  | b :: bs =>
    match ring_buffer_write rb b with
    | (false, rb') => (0, rb')
    | (true, rb') =>
      let (n, rb'') := ring_buffer_write_multiple rb' bs
      (n + 1, rb'')

/-- Model of `ring_buffer_read_multiple`: reads until empty or `length` bytes,
returns the bytes actually read. -/
def ring_buffer_read_multiple (rb : ring_buffer_t) : Nat → List Nat × ring_buffer_t
  | 0 => ([], rb)
  | n + 1 =>
    match ring_buffer_read rb with
    | (none, rb') => ([], rb')
    | (some b, rb') =>
      let (rest, rb'') := ring_buffer_read_multiple rb' n
      (b :: rest, rb'')

/-- Model of `ring_buffer_available`. -/
def ring_buffer_available (rb : ring_buffer_t) : Nat :=
  if rb.head ≥ rb.tail then rb.head - rb.tail else rb.size - rb.tail + rb.head

/-- Model of `ring_buffer_free_space`: one slot is kept empty to distinguish full
from empty. -/
def ring_buffer_free_space (rb : ring_buffer_t) : Nat :=
  rb.size - ring_buffer_available rb - 1

/-- Model of `ring_buffer_is_empty`. -/
def ring_buffer_is_empty (rb : ring_buffer_t) : Bool :=
  rb.head = rb.tail

/-- Model of `ring_buffer_is_full`. -/
def ring_buffer_is_full (rb : ring_buffer_t) : Bool :=
  (rb.head + 1) % rb.size = rb.tail

/-- Model of `ring_buffer_clear`. -/
def ring_buffer_clear (rb : ring_buffer_t) : ring_buffer_t :=
  { rb with head := 0, tail := 0 }

/-- States reachable from initialization by any sequence of write, read,
peek, bulk write, bulk read and clear operations. -/
inductive RBReachable (size : Nat) : ring_buffer_t → Prop where
  | init : RBReachable size (ring_buffer_init size)
  | write (rb : ring_buffer_t) (b : Nat) :
      RBReachable size rb → RBReachable size (ring_buffer_write rb b).2
  | read (rb : ring_buffer_t) :
      RBReachable size rb → RBReachable size (ring_buffer_read rb).2
  | peek (rb : ring_buffer_t) :
      RBReachable size rb → RBReachable size (ring_buffer_peek rb).2
  | write_multiple (rb : ring_buffer_t) (data : List Nat) :
      RBReachable size rb → RBReachable size (ring_buffer_write_multiple rb data).2
  | read_multiple (rb : ring_buffer_t) (n : Nat) :
      RBReachable size rb → RBReachable size (ring_buffer_read_multiple rb n).2
  | clear (rb : ring_buffer_t) :
      RBReachable size rb → RBReachable size (ring_buffer_clear rb)

/-- The head/tail/size well-formedness invariant. -/
def RBWf (size : Nat) (rb : ring_buffer_t) : Prop :=
  rb.size = size ∧ rb.head < size ∧ rb.tail < size

theorem rb_write_wf {size : Nat} {rb : ring_buffer_t} (hs : 0 < size)
    (h : RBWf size rb) (b : Nat) : RBWf size (ring_buffer_write rb b).2 := by
  obtain ⟨h1, h2, h3⟩ := h
  unfold ring_buffer_write
  by_cases hc : (rb.head + 1) % rb.size = rb.tail
  · simp only [hc, if_pos rfl]
    exact ⟨h1, h2, h3⟩
  · simp only [if_neg hc]
    exact ⟨h1, h1 ▸ Nat.mod_lt _ (h1 ▸ hs), h3⟩

theorem rb_read_wf {size : Nat} {rb : ring_buffer_t} (hs : 0 < size)
    (h : RBWf size rb) : RBWf size (ring_buffer_read rb).2 := by
  obtain ⟨h1, h2, h3⟩ := h
  unfold ring_buffer_read
  by_cases hc : rb.head = rb.tail
  · simp only [if_pos hc]
    exact ⟨h1, h2, h3⟩
  · simp only [if_neg hc]
    exact ⟨h1, h2, h1 ▸ Nat.mod_lt _ (h1 ▸ hs)⟩

theorem rb_peek_wf {size : Nat} {rb : ring_buffer_t}
    (h : RBWf size rb) : RBWf size (ring_buffer_peek rb).2 := by
  unfold ring_buffer_peek
  by_cases hc : rb.head = rb.tail
  · simp only [if_pos hc]; exact h
  · simp only [if_neg hc]; exact h

theorem rb_write_multiple_wf {size : Nat} (hs : 0 < size) (data : List Nat) :
    ∀ {rb : ring_buffer_t}, RBWf size rb →
      RBWf size (ring_buffer_write_multiple rb data).2 := by
  induction data with
  | nil => intro rb h; exact h
  | cons b bs ih =>
    intro rb h
    unfold ring_buffer_write_multiple
    have hw := rb_write_wf hs h b
    rcases hfst : ring_buffer_write rb b with ⟨ok, rb'⟩
    rw [hfst] at hw
    cases ok
    · exact hw
    · simpa using ih hw

theorem rb_read_multiple_wf {size : Nat} (hs : 0 < size) (n : Nat) :
    ∀ {rb : ring_buffer_t}, RBWf size rb →
      RBWf size (ring_buffer_read_multiple rb n).2 := by
  induction n with
  | zero => intro rb h; exact h
  | succ n ih =>
    intro rb h
    unfold ring_buffer_read_multiple
    have hr := rb_read_wf hs h
    rcases hfst : ring_buffer_read rb with ⟨ob, rb'⟩
    rw [hfst] at hr
    cases ob
    · exact hr
    · simpa using ih hr

theorem rb_reachable_wf {size : Nat} (hs : 0 < size) {rb : ring_buffer_t}
    (h : RBReachable size rb) : RBWf size rb := by
  induction h with
  | init => exact ⟨rfl, hs, hs⟩
  | write rb b _ ih => exact rb_write_wf hs ih b
  | read rb _ ih => exact rb_read_wf hs ih
  | peek rb _ ih => exact rb_peek_wf ih
  | write_multiple rb data _ ih => exact rb_write_multiple_wf hs data ih
  | read_multiple rb n _ ih => exact rb_read_multiple_wf hs n ih
  | clear rb _ ih => exact ⟨ih.1, hs, hs⟩

theorem rb_available_le {size : Nat} {rb : ring_buffer_t} (h : RBWf size rb) :
    ring_buffer_available rb ≤ size - 1 := by
  obtain ⟨h1, h2, h3⟩ := h
  unfold ring_buffer_available
  rcases Nat.lt_or_ge rb.head rb.tail with hlt | hge
  · rw [if_neg (by omega)]
    omega
  · rw [if_pos hge]
    omega

theorem rb_free_space_eq {size : Nat} {rb : ring_buffer_t} (h : RBWf size rb) :
    ring_buffer_free_space rb = size - 1 - ring_buffer_available rb := by
  have hle := rb_available_le h
  obtain ⟨h1, h2, h3⟩ := h
  unfold ring_buffer_free_space
  omega

/-! ### Sequential write/read round trip (no wrap-around) -/

/-- The effect of the successful write loop on the storage: bytes land at
consecutive indices starting at `h`. -/
def writeSeq : List Nat → Nat → List Nat → List Nat
  | buf, _, [] => buf
  | buf, h, b :: bs => writeSeq (buf.set h b) (h + 1) bs

theorem writeSeq_eq (data : List Nat) :
    ∀ (buf : List Nat) (h : Nat), h + data.length ≤ buf.length →
      writeSeq buf h data = buf.take h ++ data ++ buf.drop (h + data.length) := by
  induction data with
  | nil =>
    intro buf h _
    simp [writeSeq]
  | cons b bs ih =>
    intro buf h hle
    simp only [List.length_cons] at hle
    have hhl : h < buf.length := by omega
    have hset : buf.set h b = buf.take h ++ b :: buf.drop (h + 1) :=
      List.set_eq_take_cons_drop b hhl
    show writeSeq (buf.set h b) (h + 1) bs = _
    rw [ih (buf.set h b) (h + 1) (by rw [List.length_set]; omega), hset]
    have htk : (buf.take h ++ b :: buf.drop (h + 1)).take (h + 1) = buf.take h ++ [b] := by
      rw [List.take_append_eq_append_take]
      have h1 : (buf.take h).length = h := by
        rw [List.length_take]; omega
      rw [List.take_of_length_le (by omega), h1]
      simp
    have hdp : (buf.take h ++ b :: buf.drop (h + 1)).drop (h + 1 + bs.length)
        = buf.drop (h + (bs.length + 1)) := by
      rw [List.drop_append_eq_append_drop]
      have h1 : (buf.take h).length = h := by
        rw [List.length_take]; omega
      rw [List.drop_of_length_le (by omega), h1]
      simp only [List.nil_append]
      rw [show h + 1 + bs.length - h = bs.length + 1 by omega]
      rw [List.drop_succ_cons, List.drop_drop]
      congr 1
      omega
    rw [htk, hdp]
    simp [List.append_assoc]

theorem rb_write_multiple_no_wrap (data : List Nat) :
    ∀ (buf : List Nat) (N h : Nat), buf.length = N → h + data.length + 1 ≤ N →
      ring_buffer_write_multiple ⟨buf, N, h, 0⟩ data
        = (data.length, ⟨writeSeq buf h data, N, h + data.length, 0⟩) := by
  induction data with
  | nil =>
    intro buf N h _ _
    simp [ring_buffer_write_multiple, writeSeq]
  | cons b bs ih =>
    intro buf N h hlen hle
    simp only [List.length_cons] at hle
    have hmod : (h + 1) % N = h + 1 := Nat.mod_eq_of_lt (by omega)
    have hw : ring_buffer_write ⟨buf, N, h, 0⟩ b
        = (true, ⟨buf.set h b, N, h + 1, 0⟩) := by
      unfold ring_buffer_write
      simp only [hmod]
      rw [if_neg (by omega)]
    show ring_buffer_write_multiple ⟨buf, N, h, 0⟩ (b :: bs) = _
    unfold ring_buffer_write_multiple
    rw [hw]
    have := ih (buf.set h b) N (h + 1) (by rw [List.length_set]; exact hlen) (by omega)
    simp only [this]
    refine Prod.ext (by simp) ?_
    show (⟨writeSeq (buf.set h b) (h + 1) bs, N, h + 1 + bs.length, 0⟩ : ring_buffer_t)
        = ⟨writeSeq buf h (b :: bs), N, h + (bs.length + 1), 0⟩
    rw [show writeSeq buf h (b :: bs) = writeSeq (buf.set h b) (h + 1) bs from rfl,
      show h + 1 + bs.length = h + (bs.length + 1) by omega]

theorem rb_read_multiple_no_wrap (n : Nat) :
    ∀ (buf : List Nat) (N hd t : Nat), buf.length = N → t + n ≤ hd → hd < N →
      ring_buffer_read_multiple ⟨buf, N, hd, t⟩ n
        = ((buf.drop t).take n, ⟨buf, N, hd, t + n⟩) := by
  induction n with
  | zero =>
    intro buf N hd t _ _ _
    simp [ring_buffer_read_multiple]
  | succ n ih =>
    intro buf N hd t hlen hle hhd
    have hne : hd ≠ t := by omega
    have hmod : (t + 1) % N = t + 1 := Nat.mod_eq_of_lt (by omega)
    have hr : ring_buffer_read ⟨buf, N, hd, t⟩
        = (some (buf.getD t 0), ⟨buf, N, hd, t + 1⟩) := by
      unfold ring_buffer_read
      rw [if_neg (by simpa using hne), hmod]
    show ring_buffer_read_multiple ⟨buf, N, hd, t⟩ (n + 1) = _
    unfold ring_buffer_read_multiple
    rw [hr]
    have := ih buf N hd (t + 1) hlen (by omega) hhd
    simp only [this]
    have htlt : t < buf.length := by omega
    have hdrop : buf.drop t = buf[t] :: buf.drop (t + 1) :=
      List.drop_eq_getElem_cons htlt
    refine Prod.ext ?_ (by simp; omega)
    show buf.getD t 0 :: (buf.drop (t + 1)).take n = (buf.drop t).take (n + 1)
    rw [hdrop, List.take_succ_cons, List.getD_eq_getElem _ _ htlt]

/-! ## Command layer (command_layer.h / command_layer.c, final revision)

The repository carries two revisions of `command_layer.c`; the embedding
below follows the later one (the revision that adds `CMD_ERROR_BUSY` and
the `ERROR:MUST_STOP_FIRST` path and reconfigures TIM5).  The superseded
first revision of `command_handle_set_integration_time` is embedded
separately as `command_handle_set_integration_time_v1`.  Responses are
collected as the list of strings passed to `send_response`, i.e. written
to the transport's buffered outbound path via
`usb_transport_write_string`; the TIM5 register writes are external
hardware effects outside the modelled state. -/

/-- Model of `Acquisition_State_t`. -/
inductive Acquisition_State where
  | ACQ_STATE_IDLE
  | ACQ_STATE_RUNNING
deriving DecidableEq, Repr

/-- Model of `Command_Status_t` (final revision, including `CMD_ERROR_BUSY`). -/
inductive Command_Status where
  | CMD_OK
  | CMD_ERROR_UNKNOWN
  | CMD_ERROR_INVALID_PARAM
  | CMD_ERROR_NOT_IMPLEMENTED
  | CMD_ERROR_BUSY
deriving DecidableEq, Repr

open Acquisition_State Command_Status

/-- Model of `CMD_BUFFER_SIZE`. -/
def CMD_BUFFER_SIZE : Nat := 64

/-- The file-scoped state of `command_layer.c`: acquisition state, stored
integration time (`uint32_t`) and the line accumulator
(`command_buffer` together with `command_index`, modelled as the list of
accumulated bytes). -/
structure CommandLayerState where
  acquisition_state : Acquisition_State
  integration_time_us : Nat
  command_buffer : List Nat
deriving DecidableEq, Repr

/-- ASCII bytes of a string literal. -/
def strBytes (s : String) : List Nat :=
  s.data.map Char.toNat

/-- Decimal digits of a `Nat`, as ASCII bytes (the `%lu` conversion). -/
def natBytes (n : Nat) : List Nat :=
  if n < 10 then [48 + n]
  else natBytes (n / 10) ++ [48 + n % 10]
decreasing_by exact Nat.div_lt_self (by omega) (by norm_num)

theorem natBytes_length_le : ∀ (k n : Nat), n < 10 ^ (k + 1) →
    (natBytes n).length ≤ k + 1 := by
  intro k
  induction k with
  | zero =>
    intro n hn
    rw [natBytes, if_pos (by simpa using hn)]
    simp
  | succ k ih =>
    intro n hn
    by_cases h10 : n < 10
    · rw [natBytes, if_pos h10]
      simp
    · rw [natBytes, if_neg h10]
      have : n / 10 < 10 ^ (k + 1) := by
        rw [Nat.div_lt_iff_lt_mul (by norm_num)]
        calc n < 10 ^ (k + 1 + 1) := hn
        _ = 10 ^ (k + 1) * 10 := by ring
      have := ih (n / 10) this
      simp only [List.length_append, List.length_cons, List.length_nil]
      omega

theorem natBytes_nonempty (n : Nat) : natBytes n ≠ [] := by
  rw [natBytes]
  by_cases h : n < 10
  · simp [h]
  · simp [h]

/-- Model of `atoi` followed by the cast to `uint32_t`: skip leading whitespace,
read an optional sign and a run of decimal digits; a negative result wraps
modulo 2^32. -/
def atoiU32 (s : List Nat) : Nat :=
  let t := s.dropWhile (fun b => b = 32 || b = 9 || b = 10 || b = 11 || b = 12 || b = 13)
  let (neg, u) :=
    match t with
    | 45 :: rest => (true, rest)
    | 43 :: rest => (false, rest)
    | _ => (false, t)
  let digits := u.takeWhile (fun b => 48 ≤ b && b ≤ 57)
  let v := digits.foldl (fun acc d => acc * 10 + (d - 48)) 0
  if neg then (4294967296 - v % 4294967296) % 4294967296 else v % 4294967296

/-- Trailing-whitespace trim of `parse_and_execute_command`: drop trailing
spaces and carriage returns. -/
def trimTrail (s : List Nat) : List Nat :=
  (s.reverse.dropWhile (fun b => b = 32 || b = 13)).reverse

/-- Model of `snprintf` into a buffer of `size` bytes: at most `size - 1` characters
are kept. -/
def snprintf_trunc (size : Nat) (s : List Nat) : List Nat :=
  s.take (size - 1)

/-- Model of `command_handle_start`: set `ACQ_STATE_RUNNING`, reply `OK:STARTED`. -/
def command_handle_start (st : CommandLayerState) :
    CommandLayerState × List (List Nat) :=
  ({ st with acquisition_state := ACQ_STATE_RUNNING }, [strBytes "OK:STARTED\n"])

/-- Model of `command_handle_stop`: set `ACQ_STATE_IDLE`, reply `OK:STOPPED`. -/
def command_handle_stop (st : CommandLayerState) :
    CommandLayerState × List (List Nat) :=
  ({ st with acquisition_state := ACQ_STATE_IDLE }, [strBytes "OK:STOPPED\n"])

/-- Model of `command_handle_get_status`: format state and integration time into a
128-byte buffer. -/
def command_handle_get_status (st : CommandLayerState) :
    CommandLayerState × List (List Nat) :=
  let state_str := if st.acquisition_state = ACQ_STATE_RUNNING then "RUNNING" else "IDLE"
  (st, [snprintf_trunc 128 (strBytes "STATUS:" ++ strBytes state_str
    ++ strBytes ",INT_TIME:" ++ natBytes st.integration_time_us ++ strBytes "\n")])

/-- Model of `command_handle_set_integration_time`, final revision: refuse while
running (`ERROR:MUST_STOP_FIRST`, `CMD_ERROR_BUSY`), range-check 10..100000
(`ERROR:RANGE_10_TO_100000`), otherwise stop/reprogram/restart TIM5
(external hardware, not part of the modelled state), store the value and
reply `OK:INT_TIME_SET:<value>`. -/
def command_handle_set_integration_time (st : CommandLayerState)
    (microseconds : Nat) : Command_Status × CommandLayerState × List (List Nat) :=
  if st.acquisition_state = ACQ_STATE_RUNNING then
    (CMD_ERROR_BUSY, st, [strBytes "ERROR:MUST_STOP_FIRST\n"])
  else if microseconds < 10 ∨ microseconds > 100000 then
    (CMD_ERROR_INVALID_PARAM, st, [strBytes "ERROR:RANGE_10_TO_100000\n"])
  else
    (CMD_OK, { st with integration_time_us := microseconds },
      [snprintf_trunc 64 (strBytes "OK:INT_TIME_SET:" ++ natBytes microseconds
        ++ strBytes "\n")])

/-- Model of `command_handle_set_integration_time`, superseded first revision: no
state check, the value is stored even though the handler then reports
`CMD_ERROR_NOT_IMPLEMENTED`; no reply is sent by the handler itself. -/
def command_handle_set_integration_time_v1 (st : CommandLayerState)
    (microseconds : Nat) : Command_Status × CommandLayerState × List (List Nat) :=
  if microseconds < 10 ∨ microseconds > 100000 then
    (CMD_ERROR_INVALID_PARAM, st, [])
  else
    (CMD_ERROR_NOT_IMPLEMENTED, { st with integration_time_us := microseconds }, [])

/-- Model of `parse_and_execute_command`: copy at most 63 characters, trim trailing
spaces/CR, dispatch on the command word, and — for `SET_INT_TIME:` — send
one more reply chosen by the handler's status. -/
def parse_and_execute_command (st : CommandLayerState) (cmd : List Nat) :
    CommandLayerState × List (List Nat) :=
  let c := trimTrail (cmd.take (CMD_BUFFER_SIZE - 1))
  if c = strBytes "START" then
    command_handle_start st
  else if c = strBytes "STOP" then
    command_handle_stop st
  else if c = strBytes "STATUS" then
    command_handle_get_status st
  else if c.take 13 = strBytes "SET_INT_TIME:" then
    let int_time := atoiU32 (c.drop 13)
    let res := command_handle_set_integration_time st int_time
    let extra :=
      if res.1 = CMD_OK then strBytes "OK:INT_TIME_SET\n"
      else if res.1 = CMD_ERROR_NOT_IMPLEMENTED then strBytes "ERROR:NOT_IMPLEMENTED\n"
      else strBytes "ERROR:INVALID_PARAM\n"
    (res.2.1, res.2.2 ++ [extra])
  else
    (st, [snprintf_trunc 64 (strBytes "ERROR:UNKNOWN_CMD:" ++ c ++ strBytes "\n")])

/-- One byte of the `command_layer_process` loop: terminators dispatch a
non-empty accumulator, ordinary bytes accumulate while the buffer has room,
and a full buffer is discarded with `ERROR:CMD_TOO_LONG`. -/
def command_layer_step (acc : CommandLayerState × List (List Nat)) (byte : Nat) :
    CommandLayerState × List (List Nat) :=
  let (st, out) := acc
  if byte = 10 ∨ byte = 13 then
    if st.command_buffer.length > 0 then
      let (st', rs) := parse_and_execute_command st st.command_buffer
      ({ st' with command_buffer := [] }, out ++ rs)
    else
      (st, out)
  else if st.command_buffer.length < CMD_BUFFER_SIZE - 1 then
    ({ st with command_buffer := st.command_buffer ++ [byte] }, out)
  else
    ({ st with command_buffer := [] }, out ++ [strBytes "ERROR:CMD_TOO_LONG\n"])

/-- Model of `command_layer_process`: drain the available inbound bytes in order,
accumulating the replies sent. -/
def command_layer_process (st : CommandLayerState) (input : List Nat) :
    CommandLayerState × List (List Nat) :=
  input.foldl command_layer_step (st, [])

/-- Model of `command_layer_init`: idle, 20 microseconds, empty accumulator, greets
with `TCD1304_READY`. -/
def command_layer_init : CommandLayerState × List (List Nat) :=
  ({ acquisition_state := ACQ_STATE_IDLE, integration_time_us := 20,
     command_buffer := [] }, [strBytes "TCD1304_READY\n"])

/-! ## Claim theorems -/

/-- Successful `ccd_data_layer_process_readout` calls happen exactly when
the layer is initialized and both pointers are non-null, and then produce
the built frame and the incremented counter. -/
theorem process_readout_ok_elim {s : CCDLayerState} {adc : List Nat}
    {f : CCD_Frame} {s' : CCDLayerState}
    (h : ccd_data_layer_process_readout s (some adc) true
      = (CCD_FRAME_OK, some f, s')) :
    s.initialized = true ∧ f = ccd_build_frame s.frame_counter adc ∧
      s' = { s with frame_counter := (s.frame_counter + 1) % 65536 } := by
  cases hinit : s.initialized with
  | false =>
    rw [ccd_data_layer_process_readout, hinit] at h
    simp at h
  | true =>
    rw [ccd_data_layer_process_readout, hinit] at h
    simp only [Bool.true_eq_false, if_false] at h
    refine ⟨rfl, ?_, ?_⟩
    · have := congrArg (fun p => p.2.1) h
      simpa using this.symm
    · have := congrArg (fun p => p.2.2) h
      simpa using this.symm

/-- Claim C1: for every sample array of 3694 values (with the layer
initialized and non-null arguments), `build_frame`
(`ccd_data_layer_process_readout`) followed by `validate_frame`
(`ccd_data_layer_validate_frame`) on the produced frame's bytes returns
`CCD_FRAME_OK`. -/
theorem claim_C1_build_then_validate (s : CCDLayerState) (samples : List Nat)
    (f : CCD_Frame) (s' : CCDLayerState)
    (hinit : s.initialized = true)
    (hlen : samples.length = 3694)
    (hval : ∀ x ∈ samples, x < 65536)
    (hrun : ccd_data_layer_process_readout s (some samples) true
      = (CCD_FRAME_OK, some f, s')) :
    ccd_data_layer_validate_frame (ccd_frame_bytes f) = CCD_FRAME_OK := by
  obtain ⟨_, hf, _⟩ := process_readout_ok_elim hrun
  rw [hf]
  exact ccd_validate_build _ _

/-- Witness for C1 at the all-zero 3694-sample array. -/
theorem claim_C1_build_then_validate_witness :
    (⟨0, true⟩ : CCDLayerState).initialized = true ∧
    (List.replicate 3694 (0 : Nat)).length = 3694 ∧
    (∀ x ∈ List.replicate 3694 (0 : Nat), x < 65536) ∧
    ccd_data_layer_process_readout ⟨0, true⟩ (some (List.replicate 3694 0)) true
      = (CCD_FRAME_OK, some (ccd_build_frame 0 (List.replicate 3694 0)), ⟨1, true⟩) ∧
    ccd_data_layer_validate_frame
      (ccd_frame_bytes (ccd_build_frame 0 (List.replicate 3694 0))) = CCD_FRAME_OK := by
  refine ⟨rfl, by rw [List.length_replicate], ?_, rfl, ?_⟩
  · intro x hx
    have := List.eq_of_mem_replicate hx
    omega
  · exact claim_C1_build_then_validate ⟨0, true⟩ (List.replicate 3694 0)
      (ccd_build_frame 0 (List.replicate 3694 0)) ⟨1, true⟩ rfl
      (by rw [List.length_replicate])
      (fun x hx => by have := List.eq_of_mem_replicate hx; omega) rfl

/-- Claim C3: the stored checksum of every built frame is the table-driven
CRC-16-CCITT of the first 7400 bytes of the frame (everything except the
2-byte checksum field), and this table-driven CRC coincides with the
bitwise reference definition of CRC-16-CCITT. -/
theorem claim_C3_checksum_is_crc16 (s : CCDLayerState) (samples : List Nat)
    (f : CCD_Frame) (s' : CCDLayerState)
    (hinit : s.initialized = true)
    (hlen : samples.length = 3694)
    (hval : ∀ x ∈ samples, x < 65536)
    (hrun : ccd_data_layer_process_readout s (some samples) true
      = (CCD_FRAME_OK, some f, s')) :
    f.checksum = ccd_data_layer_calculate_crc16 ((ccd_frame_bytes f).take 7400) ∧
    ccd_data_layer_calculate_crc16 ((ccd_frame_bytes f).take 7400)
      = crc16_ref ((ccd_frame_bytes f).take 7400) := by
  obtain ⟨_, hf, _⟩ := process_readout_ok_elim hrun
  subst hf
  constructor
  · rw [ccd_build_frame_bytes_take, ccd_build_frame_checksum]
  · apply calculate_crc16_eq_ref
    intro b hb
    exact ccd_build_frame_bytes_mem_lt _ _ b (List.take_subset _ _ hb)

/-- Witness for C3 at the all-zero 3694-sample array. -/
theorem claim_C3_checksum_is_crc16_witness :
    (⟨0, true⟩ : CCDLayerState).initialized = true ∧
    (List.replicate 3694 (0 : Nat)).length = 3694 ∧
    (∀ x ∈ List.replicate 3694 (0 : Nat), x < 65536) ∧
    ccd_data_layer_process_readout ⟨0, true⟩ (some (List.replicate 3694 0)) true
      = (CCD_FRAME_OK, some (ccd_build_frame 0 (List.replicate 3694 0)), ⟨1, true⟩) ∧
    ((ccd_build_frame 0 (List.replicate 3694 0)).checksum
        = ccd_data_layer_calculate_crc16
            ((ccd_frame_bytes (ccd_build_frame 0 (List.replicate 3694 0))).take 7400) ∧
      ccd_data_layer_calculate_crc16
          ((ccd_frame_bytes (ccd_build_frame 0 (List.replicate 3694 0))).take 7400)
        = crc16_ref ((ccd_frame_bytes (ccd_build_frame 0 (List.replicate 3694 0))).take 7400)) := by
  refine ⟨rfl, by rw [List.length_replicate], ?_, rfl, ?_⟩
  · intro x hx
    have := List.eq_of_mem_replicate hx
    omega
  · exact claim_C3_checksum_is_crc16 ⟨0, true⟩ (List.replicate 3694 0)
      (ccd_build_frame 0 (List.replicate 3694 0)) ⟨1, true⟩ rfl
      (by rw [List.length_replicate])
      (fun x hx => by have := List.eq_of_mem_replicate hx; omega) rfl

/-- Claim C9: between two consecutive successful `build_frame` invocations
the frame counter stored in the second frame is the first frame's counter
plus 1 modulo 65536; the counter state advances on every successful codec
invocation (the codec has no dependence on whether the frame is
transmitted). -/
theorem claim_C9_counter_increments (s s₁ s₂ : CCDLayerState)
    (a₁ a₂ : List Nat) (f₁ f₂ : CCD_Frame)
    (h₁ : ccd_data_layer_process_readout s (some a₁) true
      = (CCD_FRAME_OK, some f₁, s₁))
    (h₂ : ccd_data_layer_process_readout s₁ (some a₂) true
      = (CCD_FRAME_OK, some f₂, s₂)) :
    f₂.frame_counter = (f₁.frame_counter + 1) % 65536 ∧
    s₁.frame_counter = (s.frame_counter + 1) % 65536 ∧
    s₂.frame_counter = (s₁.frame_counter + 1) % 65536 := by
  obtain ⟨_, hf₁, hs₁⟩ := process_readout_ok_elim h₁
  obtain ⟨_, hf₂, hs₂⟩ := process_readout_ok_elim h₂
  subst hf₁ hf₂ hs₁ hs₂
  exact ⟨rfl, rfl, rfl⟩

/-- Witness for C9: two consecutive calls from the freshly initialized
layer. -/
theorem claim_C9_counter_increments_witness :
    ccd_data_layer_process_readout ⟨0, true⟩ (some (List.replicate 3694 0)) true
      = (CCD_FRAME_OK, some (ccd_build_frame 0 (List.replicate 3694 0)), ⟨1, true⟩) ∧
    ccd_data_layer_process_readout ⟨1, true⟩ (some (List.replicate 3694 1)) true
      = (CCD_FRAME_OK, some (ccd_build_frame 1 (List.replicate 3694 1)), ⟨2, true⟩) ∧
    ((ccd_build_frame 1 (List.replicate 3694 1)).frame_counter
        = ((ccd_build_frame 0 (List.replicate 3694 0)).frame_counter + 1) % 65536 ∧
      (⟨1, true⟩ : CCDLayerState).frame_counter = (0 + 1) % 65536 ∧
      (⟨2, true⟩ : CCDLayerState).frame_counter = (1 + 1) % 65536) := by
  refine ⟨rfl, rfl, ?_⟩
  exact claim_C9_counter_increments ⟨0, true⟩ ⟨1, true⟩ ⟨2, true⟩
    (List.replicate 3694 0) (List.replicate 3694 1)
    (ccd_build_frame 0 (List.replicate 3694 0))
    (ccd_build_frame 1 (List.replicate 3694 1)) rfl rfl

/-- Claim C10: whenever `ccd_data_layer_process_readout` returns an error
(uninitialized layer, null ADC buffer or null frame output), the frame
counter is unchanged, so `ccd_data_layer_get_frame_count` returns the same
value before and after the failed invocation. -/
theorem claim_C10_counter_unchanged_on_error (s : CCDLayerState)
    (adc : Option (List Nat)) (fo : Bool)
    (herr : (ccd_data_layer_process_readout s adc fo).1 ≠ CCD_FRAME_OK) :
    ccd_data_layer_get_frame_count (ccd_data_layer_process_readout s adc fo).2.2
      = ccd_data_layer_get_frame_count s := by
  cases hinit : s.initialized with
  | false => simp [ccd_data_layer_process_readout, hinit]
  | true =>
    cases adc with
    | none => simp [ccd_data_layer_process_readout, hinit]
    | some a =>
      cases fo with
      | false => simp [ccd_data_layer_process_readout, hinit]
      | true =>
        exact absurd (by simp [ccd_data_layer_process_readout, hinit]) herr

/-- Witness for C10: a call on the uninitialized layer fails and leaves the
counter at its prior value. -/
theorem claim_C10_counter_unchanged_on_error_witness :
    (ccd_data_layer_process_readout ⟨5, false⟩ (some []) true).1 ≠ CCD_FRAME_OK ∧
    ccd_data_layer_get_frame_count
        (ccd_data_layer_process_readout ⟨5, false⟩ (some []) true).2.2
      = ccd_data_layer_get_frame_count ⟨5, false⟩ := by
  refine ⟨by decide, ?_⟩
  exact claim_C10_counter_unchanged_on_error ⟨5, false⟩ (some []) true (by decide)

/-- Claim C4: on every ring-buffer state reachable from initialization by
any sequence of write, read, peek, bulk-write, bulk-read and clear
operations, `free_space + available = capacity - 1`, and neither value
exceeds `capacity - 1` (both are naturals, hence non-negative). -/
theorem claim_C4_ring_invariant (size : Nat) (hs : 0 < size)
    (rb : ring_buffer_t) (h : RBReachable size rb) :
    ring_buffer_free_space rb + ring_buffer_available rb = size - 1 ∧
    ring_buffer_available rb ≤ size - 1 ∧
    ring_buffer_free_space rb ≤ size - 1 := by
  have hwf := rb_reachable_wf hs h
  have h1 := rb_available_le hwf
  have h2 := rb_free_space_eq hwf
  omega

/-- Witness for C4 at capacity 4 after a write, a read and a bulk write. -/
theorem claim_C4_ring_invariant_witness :
    (0 : Nat) < 4 ∧
    (ring_buffer_free_space (ring_buffer_write_multiple
        (ring_buffer_read (ring_buffer_write (ring_buffer_init 4) 7).2).2 [1, 2]).2
      + ring_buffer_available (ring_buffer_write_multiple
        (ring_buffer_read (ring_buffer_write (ring_buffer_init 4) 7).2).2 [1, 2]).2
      = 4 - 1) := by
  refine ⟨by norm_num, ?_⟩
  exact (claim_C4_ring_invariant 4 (by norm_num) _
    (RBReachable.write_multiple _ [1, 2]
      (RBReachable.read _ (RBReachable.write _ 7 RBReachable.init)))).1

/-- Claim C5: writing K ≤ N-1 bytes into an empty ring buffer of capacity N
(all writes succeeding) and reading K bytes back returns the identical
sequence in order, after which `available = 0` and `free_space = N-1`. -/
theorem claim_C5_write_read_roundtrip (N K : Nat) (data : List Nat)
    (hN : 0 < N) (hK : data.length = K) (hle : K ≤ N - 1) :
    (ring_buffer_write_multiple (ring_buffer_init N) data).1 = K ∧
    (ring_buffer_read_multiple
        (ring_buffer_write_multiple (ring_buffer_init N) data).2 K).1 = data ∧
    ring_buffer_available (ring_buffer_read_multiple
        (ring_buffer_write_multiple (ring_buffer_init N) data).2 K).2 = 0 ∧
    ring_buffer_free_space (ring_buffer_read_multiple
        (ring_buffer_write_multiple (ring_buffer_init N) data).2 K).2 = N - 1 := by
  subst hK
  have hw := rb_write_multiple_no_wrap data (List.replicate N 0) N 0
    (by simp) (by omega)
  have hinit : ring_buffer_init N = ⟨List.replicate N 0, N, 0, 0⟩ := rfl
  rw [hinit, hw]
  have hseq := writeSeq_eq data (List.replicate N 0) 0 (by simp; omega)
  simp only [List.take_zero, List.nil_append, Nat.zero_add] at hseq
  have hbuflen : (writeSeq (List.replicate N 0) 0 data).length = N := by
    rw [hseq]
    simp only [List.length_append, List.length_drop, List.length_replicate]
    omega
  have hr := rb_read_multiple_no_wrap data.length
    (writeSeq (List.replicate N 0) 0 data) N (0 + data.length) 0
    hbuflen (by omega) (by omega)
  rw [hr]
  have havail : ∀ (buf : List Nat) (n m : Nat),
      ring_buffer_available ⟨buf, n, m, m⟩ = 0 := by
    intro buf n m
    unfold ring_buffer_available
    dsimp only
    rw [if_pos (Nat.le_refl _)]
    omega
  refine ⟨rfl, ?_, havail _ _ _, ?_⟩
  · rw [List.drop_zero, hseq]
    exact List.take_left data _
  · unfold ring_buffer_free_space
    rw [havail]
    dsimp only
    omega

/-- Witness for C5: capacity 8, data [1,2,3]. -/
theorem claim_C5_write_read_roundtrip_witness :
    (0 : Nat) < 8 ∧ ([1, 2, 3] : List Nat).length = 3 ∧ (3 : Nat) ≤ 8 - 1 ∧
    (ring_buffer_write_multiple (ring_buffer_init 8) [1, 2, 3]).1 = 3 ∧
    (ring_buffer_read_multiple
        (ring_buffer_write_multiple (ring_buffer_init 8) [1, 2, 3]).2 3).1 = [1, 2, 3] ∧
    ring_buffer_available (ring_buffer_read_multiple
        (ring_buffer_write_multiple (ring_buffer_init 8) [1, 2, 3]).2 3).2 = 0 ∧
    ring_buffer_free_space (ring_buffer_read_multiple
        (ring_buffer_write_multiple (ring_buffer_init 8) [1, 2, 3]).2 3).2 = 8 - 1 := by
  have h := claim_C5_write_read_roundtrip 8 3 [1, 2, 3] (by norm_num) (by simp)
    (by norm_num)
  exact ⟨by norm_num, by simp, by norm_num, h.1, h.2.1, h.2.2.1, h.2.2.2⟩

/-- Claim C7: every `SET_INT_TIME` command received while the acquisition
state is `Running` makes the handler reply `ERROR:MUST_STOP_FIRST` and
return `CMD_ERROR_BUSY`, leaving the acquisition state and the stored
integration time unchanged. -/
theorem claim_C7_set_int_time_while_running (st : CommandLayerState) (us : Nat)
    (cmd : List Nat) (hrun : st.acquisition_state = ACQ_STATE_RUNNING) :
    command_handle_set_integration_time st us
      = (CMD_ERROR_BUSY, st, [strBytes "ERROR:MUST_STOP_FIRST\n"]) ∧
    ((trimTrail (cmd.take (CMD_BUFFER_SIZE - 1))).take 13 = strBytes "SET_INT_TIME:" →
      (parse_and_execute_command st cmd).1 = st ∧
      strBytes "ERROR:MUST_STOP_FIRST\n" ∈ (parse_and_execute_command st cmd).2) := by
  constructor
  · unfold command_handle_set_integration_time
    rw [if_pos hrun]
  · intro hset
    unfold parse_and_execute_command
    have h1 : trimTrail (cmd.take (CMD_BUFFER_SIZE - 1)) ≠ strBytes "START" := by
      intro h
      rw [h] at hset
      exact absurd hset (by decide)
    have h2 : trimTrail (cmd.take (CMD_BUFFER_SIZE - 1)) ≠ strBytes "STOP" := by
      intro h
      rw [h] at hset
      exact absurd hset (by decide)
    have h3 : trimTrail (cmd.take (CMD_BUFFER_SIZE - 1)) ≠ strBytes "STATUS" := by
      intro h
      rw [h] at hset
      exact absurd hset (by decide)
    rw [if_neg h1, if_neg h2, if_neg h3, if_pos hset]
    simp [command_handle_set_integration_time, hrun]

/-- Witness for C7 in the running state with `SET_INT_TIME:500`. -/
theorem claim_C7_set_int_time_while_running_witness :
    (⟨ACQ_STATE_RUNNING, 20, []⟩ : CommandLayerState).acquisition_state
      = ACQ_STATE_RUNNING ∧
    command_handle_set_integration_time ⟨ACQ_STATE_RUNNING, 20, []⟩ 500
      = (CMD_ERROR_BUSY, ⟨ACQ_STATE_RUNNING, 20, []⟩,
          [strBytes "ERROR:MUST_STOP_FIRST\n"]) ∧
    ((trimTrail ((strBytes "SET_INT_TIME:500").take (CMD_BUFFER_SIZE - 1))).take 13
        = strBytes "SET_INT_TIME:" →
      (parse_and_execute_command ⟨ACQ_STATE_RUNNING, 20, []⟩
          (strBytes "SET_INT_TIME:500")).1 = ⟨ACQ_STATE_RUNNING, 20, []⟩ ∧
      strBytes "ERROR:MUST_STOP_FIRST\n"
        ∈ (parse_and_execute_command ⟨ACQ_STATE_RUNNING, 20, []⟩
            (strBytes "SET_INT_TIME:500")).2) := by
  have h := claim_C7_set_int_time_while_running ⟨ACQ_STATE_RUNNING, 20, []⟩ 500
    (strBytes "SET_INT_TIME:500") rfl
  exact ⟨rfl, h.1, h.2⟩

/-! ### Byte-flip analysis of `validate_frame` (claim C2) -/

theorem getD_set_ne_zero (l : List Nat) {i j : Nat} (a : Nat) (h : i ≠ j) :
    (l.set i a).getD j 0 = l.getD j 0 := by
  rw [List.getD_eq_getElem?_getD, List.getD_eq_getElem?_getD, List.getElem?_set_ne h]

theorem getD_set_self_zero (l : List Nat) {i : Nat} (a : Nat) (h : i < l.length) :
    (l.set i a).getD i 0 = a := by
  rw [List.getD_eq_getElem?_getD, List.getElem?_set_self h]
  rfl

theorem ccd_bs_getD_lo (c : Nat) (adc : List Nat) (cs j : Nat) (hj : j < 7400) :
    (ccd_frame_body c adc ++ u16le cs).getD j 0 = (ccd_frame_body c adc).getD j 0 :=
  List.getD_append _ _ _ _ (by rw [ccd_frame_body_length]; exact hj)

theorem ccd_bs_getD_cks (c : Nat) (adc : List Nat) (cs j : Nat) :
    (ccd_frame_body c adc ++ u16le cs).getD (7400 + j) 0 = (u16le cs).getD j 0 := by
  rw [List.getD_append_right _ _ _ _
      (by rw [ccd_frame_body_length]; exact Nat.le_add_right 7400 j),
    ccd_frame_body_length, Nat.add_sub_cancel_left]

theorem ccd_frame_body_getD_0 (c : Nat) (adc : List Nat) :
    (ccd_frame_body c adc).getD 0 0 = 70 := by rw [ccd_frame_body_cons]; rfl

theorem ccd_frame_body_getD_1 (c : Nat) (adc : List Nat) :
    (ccd_frame_body c adc).getD 1 0 = 82 := by rw [ccd_frame_body_cons]; rfl

theorem ccd_frame_body_getD_2 (c : Nat) (adc : List Nat) :
    (ccd_frame_body c adc).getD 2 0 = 77 := by rw [ccd_frame_body_cons]; rfl

theorem ccd_frame_body_getD_3 (c : Nat) (adc : List Nat) :
    (ccd_frame_body c adc).getD 3 0 = 69 := by rw [ccd_frame_body_cons]; rfl

theorem ccd_frame_body_getD_6 (c : Nat) (adc : List Nat) :
    (ccd_frame_body c adc).getD 6 0 = 110 := by rw [ccd_frame_body_cons]; rfl

theorem ccd_frame_body_getD_7 (c : Nat) (adc : List Nat) :
    (ccd_frame_body c adc).getD 7 0 = 14 := by rw [ccd_frame_body_cons]; rfl

theorem ccd_frame_body_getD_lt (c : Nat) (adc : List Nat) (i : Nat) (hi : i < 7400) :
    (ccd_frame_body c adc).getD i 0 < 256 := by
  have hlen := ccd_frame_body_length c adc
  rw [List.getD_eq_getElem _ _ (by omega)]
  exact ccd_frame_body_mem_lt c adc _ (List.getElem_mem _)

/-- The CRC over a frame body with one byte replaced differs from the CRC
over the original body. -/
theorem ccd_crc_body_flip (c : Nat) (adc : List Nat) (i b' : Nat)
    (hi : i < 7400) (hb' : b' < 256)
    (hne : b' ≠ (ccd_frame_body c adc).getD i 0) :
    ccd_data_layer_calculate_crc16 ((ccd_frame_body c adc).set i b')
      ≠ ccd_data_layer_calculate_crc16 (ccd_frame_body c adc) := by
  have hlen := ccd_frame_body_length c adc
  have hib : i < (ccd_frame_body c adc).length := by omega
  have hset : (ccd_frame_body c adc).set i b'
      = (ccd_frame_body c adc).take i ++ b' :: (ccd_frame_body c adc).drop (i + 1) :=
    List.set_eq_take_cons_drop b' hib
  have hdecomp : (ccd_frame_body c adc)
      = (ccd_frame_body c adc).take i
          ++ (ccd_frame_body c adc)[i] :: (ccd_frame_body c adc).drop (i + 1) := by
    conv_lhs => rw [← List.take_append_drop i (ccd_frame_body c adc)]
    rw [List.drop_eq_getElem_cons hib]
  have horig : (ccd_frame_body c adc)[i] = (ccd_frame_body c adc).getD i 0 :=
    (List.getD_eq_getElem _ _ hib).symm
  have hxlt : (ccd_frame_body c adc)[i] < 256 := by
    rw [horig]
    exact ccd_frame_body_getD_lt c adc i hi
  have hneq : b' ≠ (ccd_frame_body c adc)[i] := by
    rw [horig]
    exact hne
  rw [hset]
  conv_rhs => rw [hdecomp]
  exact crc16_single_byte_change _ _ hb' hxlt hneq

/-- Flipping one byte of a built frame: marker bytes give `InvalidData`
(decided before the checksum test), the pixel-count field bytes give
`SizeError`, every other byte gives `ChecksumError`. -/
theorem ccd_validate_build_flip (c : Nat) (adc : List Nat) (i b' : Nat)
    (hi : i < 7402) (hb' : b' < 256)
    (hne : b' ≠ (ccd_frame_bytes (ccd_build_frame c adc)).getD i 0) :
    ccd_data_layer_validate_frame ((ccd_frame_bytes (ccd_build_frame c adc)).set i b')
      = (if i < 4 ∨ (7396 ≤ i ∧ i < 7400) then CCD_FRAME_ERROR_INVALID_DATA
         else if i = 6 ∨ i = 7 then CCD_FRAME_ERROR_SIZE
         else CCD_FRAME_ERROR_CHECKSUM) := by
  have hlen := ccd_frame_body_length c adc
  rw [ccd_build_frame_bytes] at hne ⊢
  obtain ⟨cs, hcs⟩ : ∃ x, ccd_data_layer_calculate_crc16 (ccd_frame_body c adc) = x :=
    ⟨_, rfl⟩
  rw [hcs] at hne ⊢
  have hcslt : cs < 65536 := hcs ▸ ccd_data_layer_calculate_crc16_lt _
  have hbslen : (ccd_frame_body c adc ++ u16le cs).length = 7402 := by
    simp [List.length_append, hlen, u16le]
  have hg0 : (ccd_frame_body c adc ++ u16le cs).getD 0 0 = 70 := by
    rw [ccd_bs_getD_lo c adc cs 0 (by norm_num), ccd_frame_body_getD_0]
  have hg1 : (ccd_frame_body c adc ++ u16le cs).getD 1 0 = 82 := by
    rw [ccd_bs_getD_lo c adc cs 1 (by norm_num), ccd_frame_body_getD_1]
  have hg2 : (ccd_frame_body c adc ++ u16le cs).getD 2 0 = 77 := by
    rw [ccd_bs_getD_lo c adc cs 2 (by norm_num), ccd_frame_body_getD_2]
  have hg3 : (ccd_frame_body c adc ++ u16le cs).getD 3 0 = 69 := by
    rw [ccd_bs_getD_lo c adc cs 3 (by norm_num), ccd_frame_body_getD_3]
  have hg6 : (ccd_frame_body c adc ++ u16le cs).getD 6 0 = 110 := by
    rw [ccd_bs_getD_lo c adc cs 6 (by norm_num), ccd_frame_body_getD_6]
  have hg7 : (ccd_frame_body c adc ++ u16le cs).getD 7 0 = 14 := by
    rw [ccd_bs_getD_lo c adc cs 7 (by norm_num), ccd_frame_body_getD_7]
  have hgE0 : (ccd_frame_body c adc ++ u16le cs).getD 7396 0 = 69 := by
    rw [ccd_bs_getD_lo c adc cs 7396 (by norm_num),
      show (7396 : Nat) = 7396 + 0 from rfl, ccd_frame_body_getD_end]
    rfl
  have hgE1 : (ccd_frame_body c adc ++ u16le cs).getD 7397 0 = 78 := by
    rw [ccd_bs_getD_lo c adc cs 7397 (by norm_num),
      show (7397 : Nat) = 7396 + 1 by norm_num, ccd_frame_body_getD_end]
    rfl
  have hgE2 : (ccd_frame_body c adc ++ u16le cs).getD 7398 0 = 68 := by
    rw [ccd_bs_getD_lo c adc cs 7398 (by norm_num),
      show (7398 : Nat) = 7396 + 2 by norm_num, ccd_frame_body_getD_end]
    rfl
  have hgE3 : (ccd_frame_body c adc ++ u16le cs).getD 7399 0 = 70 := by
    rw [ccd_bs_getD_lo c adc cs 7399 (by norm_num),
      show (7399 : Nat) = 7396 + 3 by norm_num, ccd_frame_body_getD_end]
    rfl
  have hg7400 : (ccd_frame_body c adc ++ u16le cs).getD 7400 0 = cs % 256 := by
    rw [show (7400 : Nat) = 7400 + 0 from rfl, ccd_bs_getD_cks]
    rfl
  have hg7401 : (ccd_frame_body c adc ++ u16le cs).getD 7401 0 = cs / 256 % 256 := by
    rw [show (7401 : Nat) = 7400 + 1 by norm_num, ccd_bs_getD_cks]
    rfl
  have htake : (ccd_frame_body c adc ++ u16le cs).take 7400 = ccd_frame_body c adc :=
    List.take_left' hlen
  by_cases hA : i < 4 ∨ (7396 ≤ i ∧ i < 7400)
  · -- a marker byte was flipped: the relevant memcmp fails first
    rw [if_pos hA]
    unfold ccd_data_layer_validate_frame
    rcases hA with hA | hA
    · rw [if_pos]
      intro ⟨h0, h1, h2, h3⟩
      have hiv : i = 0 ∨ i = 1 ∨ i = 2 ∨ i = 3 := by omega
      rcases hiv with rfl | rfl | rfl | rfl
      · rw [getD_set_self_zero _ _ (by omega)] at h0
        rw [hg0] at hne
        exact hne h0
      · rw [getD_set_self_zero _ _ (by omega)] at h1
        rw [hg1] at hne
        exact hne h1
      · rw [getD_set_self_zero _ _ (by omega)] at h2
        rw [hg2] at hne
        exact hne h2
      · rw [getD_set_self_zero _ _ (by omega)] at h3
        rw [hg3] at hne
        exact hne h3
    · rw [if_neg, if_pos]
      · intro ⟨h0, h1, h2, h3⟩
        have hiv : i = 7396 ∨ i = 7397 ∨ i = 7398 ∨ i = 7399 := by omega
        rcases hiv with rfl | rfl | rfl | rfl
        · rw [getD_set_self_zero _ _ (by omega)] at h0
          rw [hgE0] at hne
          exact hne h0
        · rw [getD_set_self_zero _ _ (by omega)] at h1
          rw [hgE1] at hne
          exact hne h1
        · rw [getD_set_self_zero _ _ (by omega)] at h2
          rw [hgE2] at hne
          exact hne h2
        · rw [getD_set_self_zero _ _ (by omega)] at h3
          rw [hgE3] at hne
          exact hne h3
      · rw [not_not]
        refine ⟨?_, ?_, ?_, ?_⟩ <;>
          rw [getD_set_ne_zero _ _ (by omega)]
        · exact hg0
        · exact hg1
        · exact hg2
        · exact hg3
  · by_cases hC : i = 6 ∨ i = 7
    · -- a pixel-count byte was flipped: the size check fails
      rw [if_neg hA, if_pos hC]
      unfold ccd_data_layer_validate_frame
      rw [if_neg, if_neg, if_pos]
      · show ¬((_ : List Nat).getD 6 0 + 256 * (_ : List Nat).getD 7 0 = CCD_PIXEL_COUNT)
        rcases hC with rfl | rfl
        · rw [getD_set_self_zero _ _ (by omega), getD_set_ne_zero _ _ (by omega), hg7]
          rw [hg6] at hne
          show ¬(b' + 256 * 14 = CCD_PIXEL_COUNT)
          rw [CCD_PIXEL_COUNT]
          omega
        · rw [getD_set_self_zero _ _ (by omega), getD_set_ne_zero _ _ (by omega), hg6]
          rw [hg7] at hne
          show ¬(110 + 256 * b' = CCD_PIXEL_COUNT)
          rw [CCD_PIXEL_COUNT]
          omega
      · rw [not_not]
        refine ⟨?_, ?_, ?_, ?_⟩ <;> rw [getD_set_ne_zero _ _ (by omega)]
        · exact hgE0
        · exact hgE1
        · exact hgE2
        · exact hgE3
      · rw [not_not]
        refine ⟨?_, ?_, ?_, ?_⟩ <;> rw [getD_set_ne_zero _ _ (by omega)]
        · exact hg0
        · exact hg1
        · exact hg2
        · exact hg3
    · -- any other byte: the recomputed CRC disagrees with the stored checksum
      rw [if_neg hA, if_neg hC]
      unfold ccd_data_layer_validate_frame
      rw [if_neg, if_neg, if_neg, if_pos]
      · -- the checksum comparison fails
        by_cases hD : i < 7400
        · -- the flipped byte is covered by the CRC
          have htk : ((ccd_frame_body c adc ++ u16le cs).set i b').take 7400
              = (ccd_frame_body c adc).set i b' := by
            rw [List.set_take, htake]
          rw [htk, getD_set_ne_zero _ _ (by omega), getD_set_ne_zero _ _ (by omega),
            hg7400, hg7401]
          have hcrc := ccd_crc_body_flip c adc i b' hD hb'
            (by rwa [ccd_bs_getD_lo c adc cs i hD] at hne)
          rw [hcs] at hcrc
          intro h
          exact absurd (h.symm ▸ hcrc) (by omega)
        · -- a stored-checksum byte was flipped
          have htk : ((ccd_frame_body c adc ++ u16le cs).set i b').take 7400
              = ccd_frame_body c adc := by
            rw [List.set_take, htake, List.set_eq_of_length_le]
            rw [hlen]
            omega
          rw [htk, hcs]
          have hiv : i = 7400 ∨ i = 7401 := by omega
          rcases hiv with rfl | rfl
          · rw [getD_set_self_zero _ _ (by omega), getD_set_ne_zero _ _ (by omega),
              hg7401]
            rw [hg7400] at hne
            omega
          · rw [getD_set_self_zero _ _ (by omega), getD_set_ne_zero _ _ (by omega),
              hg7400]
            rw [hg7401] at hne
            omega
      · rw [not_not]
        rw [getD_set_ne_zero _ _ (by omega), getD_set_ne_zero _ _ (by omega), hg6, hg7]
        rw [CCD_PIXEL_COUNT]
      · rw [not_not]
        refine ⟨?_, ?_, ?_, ?_⟩ <;> rw [getD_set_ne_zero _ _ (by omega)]
        · exact hgE0
        · exact hgE1
        · exact hgE2
        · exact hgE3
      · rw [not_not]
        refine ⟨?_, ?_, ?_, ?_⟩ <;> rw [getD_set_ne_zero _ _ (by omega)]
        · exact hg0
        · exact hg1
        · exact hg2
        · exact hg3

/-- Claim C2, counterexample to the original statement: byte 6 lies outside
the two 4-byte markers, yet flipping it in a valid built frame makes
`validate_frame` return `SizeError`, not `ChecksumError` (byte 6 is the low
byte of the pixel-count field). -/
theorem claim_C2_counterexample :
    ccd_data_layer_validate_frame
        ((ccd_frame_bytes (ccd_build_frame 0 (List.replicate 3694 0))).set 6 111)
      ≠ CCD_FRAME_ERROR_CHECKSUM ∧
    ccd_data_layer_validate_frame
        ((ccd_frame_bytes (ccd_build_frame 0 (List.replicate 3694 0))).set 6 111)
      = CCD_FRAME_ERROR_SIZE := by
  have h := ccd_validate_build_flip 0 (List.replicate 3694 0) 6 111
    (by norm_num) (by norm_num) (by decide)
  rw [if_neg (by norm_num), if_pos (by norm_num)] at h
  exact ⟨by rw [h]; decide, h⟩

/-- Claim C2 as amended: for every valid built frame, flipping a single
byte at a marker position (0-3 or 7396-7399) yields `InvalidData` (decided
before the checksum is consulted), flipping a pixel-count byte (6 or 7)
yields `SizeError`, and flipping any other byte yields `ChecksumError`. -/
theorem claim_C2_flip_amended (s : CCDLayerState) (samples : List Nat)
    (f : CCD_Frame) (s' : CCDLayerState)
    (hinit : s.initialized = true)
    (hlen : samples.length = 3694)
    (hval : ∀ x ∈ samples, x < 65536)
    (hrun : ccd_data_layer_process_readout s (some samples) true
      = (CCD_FRAME_OK, some f, s'))
    (i b' : Nat) (hi : i < 7402) (hb' : b' < 256)
    (hne : b' ≠ (ccd_frame_bytes f).getD i 0) :
    ccd_data_layer_validate_frame ((ccd_frame_bytes f).set i b')
      = (if i < 4 ∨ (7396 ≤ i ∧ i < 7400) then CCD_FRAME_ERROR_INVALID_DATA
         else if i = 6 ∨ i = 7 then CCD_FRAME_ERROR_SIZE
         else CCD_FRAME_ERROR_CHECKSUM) := by
  obtain ⟨_, hf, _⟩ := process_readout_ok_elim hrun
  subst hf
  exact ccd_validate_build_flip _ _ i b' hi hb' hne

/-- Witness for the amended C2: flipping pixel byte 100 of the all-zero
frame to 1 yields `ChecksumError`. -/
theorem claim_C2_flip_amended_witness :
    (⟨0, true⟩ : CCDLayerState).initialized = true ∧
    (List.replicate 3694 (0 : Nat)).length = 3694 ∧
    (∀ x ∈ List.replicate 3694 (0 : Nat), x < 65536) ∧
    ccd_data_layer_process_readout ⟨0, true⟩ (some (List.replicate 3694 0)) true
      = (CCD_FRAME_OK, some (ccd_build_frame 0 (List.replicate 3694 0)), ⟨1, true⟩) ∧
    (100 : Nat) < 7402 ∧ (1 : Nat) < 256 ∧
    (1 : Nat) ≠ (ccd_frame_bytes (ccd_build_frame 0 (List.replicate 3694 0))).getD 100 0 ∧
    ccd_data_layer_validate_frame
        ((ccd_frame_bytes (ccd_build_frame 0 (List.replicate 3694 0))).set 100 1)
      = CCD_FRAME_ERROR_CHECKSUM := by
  refine ⟨rfl, by rw [List.length_replicate], ?_, rfl, by norm_num, by norm_num,
    by decide, ?_⟩
  · intro x hx
    have := List.eq_of_mem_replicate hx
    omega
  · have h := claim_C2_flip_amended ⟨0, true⟩ (List.replicate 3694 0)
      (ccd_build_frame 0 (List.replicate 3694 0)) ⟨1, true⟩ rfl
      (by rw [List.length_replicate])
      (fun x hx => by have := List.eq_of_mem_replicate hx; omega) rfl
      100 1 (by norm_num) (by norm_num) (by decide)
    rw [if_neg (by norm_num), if_neg (by norm_num)] at h
    exact h

/-! ### Reply counting and termination (claim C6) -/

theorem strBytes_newline : strBytes "\n" = [10] := by decide

theorem snprintf_trunc_keep {size : Nat} {s : List Nat} (h : s.length ≤ size - 1) :
    snprintf_trunc size s = s :=
  List.take_of_length_le h

theorem append_newline_terminated (s : List Nat) :
    s ++ [10] ≠ [] ∧ (s ++ [10]).getLast? = some 10 :=
  ⟨by simp, List.getLast?_concat s⟩

/-- Claim C6, counterexample to the original statement: in the final
revision a valid `SET_INT_TIME` command produces two replies, because
`command_handle_set_integration_time` sends its own detailed reply and
`parse_and_execute_command` then sends a second, status-derived reply. -/
theorem claim_C6_counterexample :
    (parse_and_execute_command ⟨ACQ_STATE_IDLE, 20, []⟩
        (strBytes "SET_INT_TIME:20")).2.length = 2 ∧
    (parse_and_execute_command ⟨ACQ_STATE_IDLE, 20, []⟩
        (strBytes "SET_INT_TIME:20")).2.length ≠ 1 := by
  constructor
  · rfl
  · intro h
    rw [show (parse_and_execute_command ⟨ACQ_STATE_IDLE, 20, []⟩
        (strBytes "SET_INT_TIME:20")).2.length = 2 from rfl] at h
    exact absurd h (by norm_num)

/-- Claim C6 as amended: every complete command line produces exactly one
terminated ASCII reply via the buffered outbound path, except that a
`SET_INT_TIME:` command produces exactly two replies (both terminated),
and the echo in an unknown-command reply loses its terminator when the
trimmed command is longer than 44 bytes (the 64-byte `snprintf` buffer
truncates it). -/
theorem claim_C6_reply_count_amended (st : CommandLayerState) (cmd : List Nat)
    (hint : st.integration_time_us < 4294967296) :
    (parse_and_execute_command st cmd).2.length
      = (if (trimTrail (cmd.take (CMD_BUFFER_SIZE - 1))).take 13
            = strBytes "SET_INT_TIME:" then 2 else 1) ∧
    ∀ r ∈ (parse_and_execute_command st cmd).2,
      (r ≠ [] ∧ r.getLast? = some 10) ∨
        44 < (trimTrail (cmd.take (CMD_BUFFER_SIZE - 1))).length := by
  unfold parse_and_execute_command
  by_cases h1 : trimTrail (cmd.take (CMD_BUFFER_SIZE - 1)) = strBytes "START"
  · rw [if_pos h1, if_neg (by rw [h1]; decide)]
    refine ⟨rfl, ?_⟩
    intro r hr
    left
    rw [command_handle_start] at hr
    simp only [List.mem_singleton] at hr
    subst hr
    exact ⟨by decide, by decide⟩
  · rw [if_neg h1]
    by_cases h2 : trimTrail (cmd.take (CMD_BUFFER_SIZE - 1)) = strBytes "STOP"
    · rw [if_pos h2, if_neg (by rw [h2]; decide)]
      refine ⟨rfl, ?_⟩
      intro r hr
      left
      rw [command_handle_stop] at hr
      simp only [List.mem_singleton] at hr
      subst hr
      exact ⟨by decide, by decide⟩
    · rw [if_neg h2]
      by_cases h3 : trimTrail (cmd.take (CMD_BUFFER_SIZE - 1)) = strBytes "STATUS"
      · rw [if_pos h3, if_neg (by rw [h3]; decide)]
        refine ⟨rfl, ?_⟩
        intro r hr
        left
        rw [command_handle_get_status] at hr
        simp only [List.mem_singleton] at hr
        subst hr
        have hten : (10 : Nat) ^ 10 = 10000000000 := by norm_num
        have hnb : (natBytes st.integration_time_us).length ≤ 10 :=
          natBytes_length_le 9 st.integration_time_us (by omega)
        have hplen : (strBytes "STATUS:"
            ++ strBytes (if st.acquisition_state = ACQ_STATE_RUNNING then "RUNNING"
                else "IDLE")
            ++ strBytes ",INT_TIME:" ++ natBytes st.integration_time_us
            ++ strBytes "\n").length ≤ 127 := by
          simp only [List.length_append]
          have e1 : (strBytes "STATUS:").length = 7 := by decide
          have e2 : (strBytes ",INT_TIME:").length = 10 := by decide
          have e3 : (strBytes "\n").length = 1 := by decide
          have e4 : (strBytes (if st.acquisition_state = ACQ_STATE_RUNNING then "RUNNING"
              else "IDLE")).length ≤ 7 := by
            by_cases hacq : st.acquisition_state = ACQ_STATE_RUNNING
            · rw [if_pos hacq]; decide
            · rw [if_neg hacq]; decide
          omega
        rw [snprintf_trunc_keep (by omega)]
        rw [show strBytes "STATUS:"
            ++ strBytes (if st.acquisition_state = ACQ_STATE_RUNNING then "RUNNING"
                else "IDLE")
            ++ strBytes ",INT_TIME:" ++ natBytes st.integration_time_us
            ++ strBytes "\n"
          = (strBytes "STATUS:"
            ++ strBytes (if st.acquisition_state = ACQ_STATE_RUNNING then "RUNNING"
                else "IDLE")
            ++ strBytes ",INT_TIME:" ++ natBytes st.integration_time_us)
            ++ [10] by rw [strBytes_newline]]
        exact append_newline_terminated _
      · rw [if_neg h3]
        by_cases h4 : (trimTrail (cmd.take (CMD_BUFFER_SIZE - 1))).take 13
            = strBytes "SET_INT_TIME:"
        · rw [if_pos h4, if_pos h4]
          unfold command_handle_set_integration_time
          dsimp only
          by_cases hrun : st.acquisition_state = ACQ_STATE_RUNNING
          · rw [if_pos hrun]
            refine ⟨rfl, ?_⟩
            intro r hr
            left
            have hr' : r = strBytes "ERROR:MUST_STOP_FIRST\n"
                ∨ r = strBytes "ERROR:INVALID_PARAM\n" := by
              simpa using hr
            rcases hr' with rfl | rfl <;> exact ⟨by decide, by decide⟩
          · rw [if_neg hrun]
            by_cases hrange : atoiU32 ((trimTrail
                (cmd.take (CMD_BUFFER_SIZE - 1))).drop 13) < 10
              ∨ atoiU32 ((trimTrail (cmd.take (CMD_BUFFER_SIZE - 1))).drop 13) > 100000
            · rw [if_pos hrange]
              refine ⟨rfl, ?_⟩
              intro r hr
              left
              have hr' : r = strBytes "ERROR:RANGE_10_TO_100000\n"
                  ∨ r = strBytes "ERROR:INVALID_PARAM\n" := by
                simpa using hr
              rcases hr' with rfl | rfl <;> exact ⟨by decide, by decide⟩
            · rw [if_neg hrange]
              refine ⟨rfl, ?_⟩
              intro r hr
              left
              have hr' : r = snprintf_trunc 64 (strBytes "OK:INT_TIME_SET:"
                    ++ natBytes (atoiU32 ((trimTrail
                        (cmd.take (CMD_BUFFER_SIZE - 1))).drop 13))
                    ++ strBytes "\n")
                  ∨ r = strBytes "OK:INT_TIME_SET\n" := by
                simpa using hr
              rcases hr' with rfl | rfl
              · have hmil : (10 : Nat) ^ 6 = 1000000 := by norm_num
                have hnb : (natBytes (atoiU32 ((trimTrail
                    (cmd.take (CMD_BUFFER_SIZE - 1))).drop 13))).length ≤ 6 :=
                  natBytes_length_le 5 _ (by omega)
                have hplen : (strBytes "OK:INT_TIME_SET:"
                    ++ natBytes (atoiU32 ((trimTrail
                        (cmd.take (CMD_BUFFER_SIZE - 1))).drop 13))
                    ++ strBytes "\n").length ≤ 63 := by
                  simp only [List.length_append]
                  have e1 : (strBytes "OK:INT_TIME_SET:").length = 16 := by decide
                  have e3 : (strBytes "\n").length = 1 := by decide
                  omega
                rw [snprintf_trunc_keep (by omega)]
                rw [show strBytes "OK:INT_TIME_SET:"
                    ++ natBytes (atoiU32 ((trimTrail
                        (cmd.take (CMD_BUFFER_SIZE - 1))).drop 13))
                    ++ strBytes "\n"
                  = (strBytes "OK:INT_TIME_SET:"
                    ++ natBytes (atoiU32 ((trimTrail
                        (cmd.take (CMD_BUFFER_SIZE - 1))).drop 13)))
                    ++ [10] by rw [strBytes_newline]]
                exact append_newline_terminated _
              · exact ⟨by decide, by decide⟩
        · rw [if_neg h4, if_neg h4]
          refine ⟨rfl, ?_⟩
          intro r hr
          simp only [List.mem_singleton] at hr
          subst hr
          by_cases hcl : (trimTrail (cmd.take (CMD_BUFFER_SIZE - 1))).length ≤ 44
          · left
            have hplen : (strBytes "ERROR:UNKNOWN_CMD:"
                ++ trimTrail (cmd.take (CMD_BUFFER_SIZE - 1))
                ++ strBytes "\n").length ≤ 63 := by
              simp only [List.length_append]
              have e1 : (strBytes "ERROR:UNKNOWN_CMD:").length = 18 := by decide
              have e3 : (strBytes "\n").length = 1 := by decide
              omega
            rw [snprintf_trunc_keep (by omega)]
            rw [show strBytes "ERROR:UNKNOWN_CMD:"
                ++ trimTrail (cmd.take (CMD_BUFFER_SIZE - 1)) ++ strBytes "\n"
              = (strBytes "ERROR:UNKNOWN_CMD:"
                ++ trimTrail (cmd.take (CMD_BUFFER_SIZE - 1))) ++ [10]
              by rw [strBytes_newline]]
            exact append_newline_terminated _
          · right
            omega

/-- Witness for the amended C6: a `STATUS` command from the idle state
yields exactly one terminated reply. -/
theorem claim_C6_reply_count_amended_witness :
    (⟨ACQ_STATE_IDLE, 20, []⟩ : CommandLayerState).integration_time_us < 4294967296 ∧
    (parse_and_execute_command ⟨ACQ_STATE_IDLE, 20, []⟩ (strBytes "STATUS")).2.length
      = (if (trimTrail ((strBytes "STATUS").take (CMD_BUFFER_SIZE - 1))).take 13
            = strBytes "SET_INT_TIME:" then 2 else 1) ∧
    ∀ r ∈ (parse_and_execute_command ⟨ACQ_STATE_IDLE, 20, []⟩ (strBytes "STATUS")).2,
      (r ≠ [] ∧ r.getLast? = some 10) ∨
        44 < (trimTrail ((strBytes "STATUS").take (CMD_BUFFER_SIZE - 1))).length := by
  have h := claim_C6_reply_count_amended ⟨ACQ_STATE_IDLE, 20, []⟩
    (strBytes "STATUS") (by norm_num)
  exact ⟨by norm_num, h.1, h.2⟩

/-! ### Oversized command handling (claim C8) -/

/-- Non-terminator bytes accumulate into the line buffer, in order and
byte for byte, while the buffer has room. -/
theorem cmd_accumulate (input : List Nat) :
    ∀ (st : CommandLayerState) (out : List (List Nat)),
      (∀ b ∈ input, b ≠ 10 ∧ b ≠ 13) →
      st.command_buffer.length + input.length ≤ 63 →
      input.foldl command_layer_step (st, out)
        = ({ st with command_buffer := st.command_buffer ++ input }, out) := by
  induction input with
  | nil =>
    intro st out _ _
    simp
  | cons b bs ih =>
    intro st out hnt hle
    simp only [List.length_cons] at hle
    rw [List.foldl_cons]
    have hb := hnt b (by simp)
    have hstep : command_layer_step (st, out) b
        = ({ st with command_buffer := st.command_buffer ++ [b] }, out) := by
      unfold command_layer_step
      dsimp only
      rw [if_neg (not_or.mpr ⟨hb.1, hb.2⟩),
        if_pos (show st.command_buffer.length < CMD_BUFFER_SIZE - 1 by
          simp only [CMD_BUFFER_SIZE]; omega)]
    rw [hstep, ih _ out (fun x hx => hnt x (List.mem_cons_of_mem b hx))
      (by simp; omega)]
    rw [List.append_assoc, List.singleton_append]

/-- Claim C8 as amended: when a command line of L (64 ≤ L ≤ 127)
non-terminator bytes arrives before a terminator, the first 63 bytes and
the overflowing 64th byte are discarded with a single `ERROR:CMD_TOO_LONG`
reply — but the remaining bytes of the same line accumulate afresh, and
when the terminator arrives that (L-64)-byte tail (the line's last L-64
bytes, `ln.drop 64`) is dispatched as its own command; only a line of
exactly 64 bytes is dropped whole. -/
theorem claim_C8_oversized_amended (st : CommandLayerState) (ln : List Nat)
    (L : Nat) (hbuf : st.command_buffer = [])
    (hnt : ∀ b ∈ ln, b ≠ 10 ∧ b ≠ 13)
    (hlen : ln.length = L) (hL : 64 ≤ L) (hL2 : L ≤ 127) :
    (command_layer_process st (ln ++ [10])).2
      = strBytes "ERROR:CMD_TOO_LONG\n" ::
          (if L = 64 then []
           else (parse_and_execute_command
               ⟨st.acquisition_state, st.integration_time_us, ln.drop 64⟩
               (ln.drop 64)).2) := by
  subst hlen
  have h63 : 63 < ln.length := by omega
  have htk63 : (ln.take 63).length = 63 := by
    rw [List.length_take]
    omega
  have hdp : ln.drop 63 = ln[63] :: ln.drop 64 :=
    List.drop_eq_getElem_cons h63
  have hsplit : ln ++ [10] = ln.take 63 ++ (ln[63] :: (ln.drop 64 ++ [10])) := by
    conv_lhs => rw [← List.take_append_drop 63 ln, hdp]
    rw [List.append_assoc]
    rfl
  have e1 : List.foldl command_layer_step (st, ([] : List (List Nat))) (ln.take 63)
      = ({ st with command_buffer := st.command_buffer ++ ln.take 63 }, []) :=
    cmd_accumulate (ln.take 63) st []
      (fun b hb => hnt b (List.take_subset 63 ln hb))
      (by rw [hbuf, htk63]; simp)
  have e2 : command_layer_step
      ({ st with command_buffer := st.command_buffer ++ ln.take 63 },
        ([] : List (List Nat))) ln[63]
      = ({ st with command_buffer := [] },
          [strBytes "ERROR:CMD_TOO_LONG\n"]) := by
    have hb63 := hnt ln[63] (List.getElem_mem h63)
    unfold command_layer_step
    dsimp only
    rw [if_neg (not_or.mpr ⟨hb63.1, hb63.2⟩),
      if_neg (by rw [hbuf]; simp only [List.nil_append, htk63, CMD_BUFFER_SIZE]; omega)]
    rfl
  have e3 : List.foldl command_layer_step
      ({ st with command_buffer := [] }, [strBytes "ERROR:CMD_TOO_LONG\n"])
      (ln.drop 64)
      = (⟨st.acquisition_state, st.integration_time_us, ln.drop 64⟩,
          [strBytes "ERROR:CMD_TOO_LONG\n"]) := by
    rw [cmd_accumulate (ln.drop 64) _ _
      (fun b hb => hnt b (List.drop_subset 64 ln hb))
      (by simp; omega)]
    rw [show (({ st with command_buffer := [] } : CommandLayerState).command_buffer
        ++ ln.drop 64) = ln.drop 64 from by simp]
  unfold command_layer_process
  rw [hsplit, List.foldl_append, e1, List.foldl_cons, e2, List.foldl_append, e3,
    List.foldl_cons, List.foldl_nil]
  unfold command_layer_step
  dsimp only
  rw [if_pos (Or.inl rfl)]
  by_cases hL64 : ln.length = 64
  · rw [if_neg (by simp only [List.length_drop, hL64]; omega), if_pos hL64]
  · rw [if_pos (by simp only [List.length_drop]; omega), if_neg hL64]
    rfl

/-- Claim C8, counterexample to the original statement: a 65-byte line of
`A`s followed by a newline does not discard the whole command — after the
`ERROR:CMD_TOO_LONG` reply, the 65th byte survives and is dispatched as the
one-character command `A`, answered `ERROR:UNKNOWN_CMD:A`. -/
theorem claim_C8_counterexample :
    (command_layer_process ⟨ACQ_STATE_IDLE, 20, []⟩
        (List.replicate 65 65 ++ [10])).2
      = [strBytes "ERROR:CMD_TOO_LONG\n", strBytes "ERROR:UNKNOWN_CMD:A\n"] ∧
    (command_layer_process ⟨ACQ_STATE_IDLE, 20, []⟩
        (List.replicate 65 65 ++ [10])).2
      ≠ [strBytes "ERROR:CMD_TOO_LONG\n"] := by
  constructor
  · decide
  · decide

/-- Witness for the amended C8: 64 `X`s immediately followed by the text
`STATUS` and a newline; the surviving 6-byte tail is dispatched as a real
`STATUS` command. -/
theorem claim_C8_oversized_amended_witness :
    (⟨ACQ_STATE_IDLE, 20, []⟩ : CommandLayerState).command_buffer = [] ∧
    (∀ b ∈ List.replicate 64 88 ++ strBytes "STATUS", b ≠ 10 ∧ b ≠ 13) ∧
    (List.replicate 64 88 ++ strBytes "STATUS").length = 70 ∧
    (64 : Nat) ≤ 70 ∧ (70 : Nat) ≤ 127 ∧
    (command_layer_process ⟨ACQ_STATE_IDLE, 20, []⟩
        ((List.replicate 64 88 ++ strBytes "STATUS") ++ [10])).2
      = strBytes "ERROR:CMD_TOO_LONG\n" ::
          (if (70 : Nat) = 64 then []
           else (parse_and_execute_command
               ⟨ACQ_STATE_IDLE, 20,
                 (List.replicate 64 88 ++ strBytes "STATUS").drop 64⟩
               ((List.replicate 64 88 ++ strBytes "STATUS").drop 64)).2) := by
  refine ⟨rfl, by decide, by decide, by norm_num, by norm_num, ?_⟩
  exact claim_C8_oversized_amended ⟨ACQ_STATE_IDLE, 20, []⟩
    (List.replicate 64 88 ++ strBytes "STATUS") 70 rfl (by decide) (by decide)
    (by norm_num) (by norm_num)

end TCD1304
